import Mathlib

/-!
# Now-playing aggregation server: state store, arbitration, bridge projection, command register

A shallow embedding of `src/server.js`.

Modelling conventions.

* Wall-clock readings (`Date.now()`) are explicit `Int` arguments (milliseconds).  The code
  reads `ts = 0` as "never written"; statements about writes take the readings positive.
* A value found in a parsed JSON body is a `JsVal`.  Finite numbers are exact rationals (every
  double is one); `Math.floor`, `Math.max`, `Math.min` and comparisons are exact on them.
  A number or a composite value carries the text `String(v)` produces for it, since number
  printing is not modelled.  A parsed object on which `String` and `Number` throw (one with an
  own `toString` property, which is never callable after `JSON.parse`) is the extra case of
  `RawVal`; `sanitizeIncomingRaw` is `sanitizeIncoming` with that case.
* Store entries hold integers in `positionMs`, `durationMs` and `ts`: every write goes through
  `Math.floor` or copies a clock reading.
* The configuration constants read from the process environment are the fields of `Config`.
* Integer arithmetic is exact (all quantities stay far below `2 ^ 53`).
-/

namespace NowPlaying

/-! ## JavaScript values -/

/-- A JavaScript number: a finite value, `NaN`, or one of the two infinities. -/
inductive JsNum where
  | fin (q : ℚ)
  | nan
  | posInf
  | negInf
deriving DecidableEq

/-- A value of a parsed request body (or `undefined` for an absent property) whose conversions
to text and to number succeed.  An object or array is `obj`, with the text `String(v)` gives;
a parsed object on which `String` throws is not a `JsVal`, see `RawVal`. -/
inductive JsVal where
  | undefined
  | null
  | bool (b : Bool)
  | num (n : JsNum) (text : String)
  | str (s : String)
  | obj (text : String)
deriving DecidableEq

/-- The characters removed by `String.prototype.trim` (white space and line terminators). -/
def isJsSpace (c : Char) : Bool :=
  let n := c.toNat
  (9 ≤ n && n ≤ 13) || n == 32 || n == 160 || n == 5760 || (8192 ≤ n && n ≤ 8202) ||
    n == 8232 || n == 8233 || n == 8239 || n == 8287 || n == 12288 || n == 65279

/-- The function `trim` on the character list of a string. -/
def jsTrimChars (l : List Char) : List Char :=
  ((l.dropWhile isJsSpace).reverse.dropWhile isJsSpace).reverse

/-- The method `String.prototype.trim`. -/
def jsTrim (s : String) : String := String.mk (jsTrimChars s.data)

/-- The method `String.prototype.toLowerCase` (on the ASCII letters). -/
def jsToLower (s : String) : String := String.mk (s.data.map Char.toLower)

/-- The method `String.prototype.includes`: `t` occurs in `n` as a contiguous substring. -/
def jsIncludes (n t : String) : Bool := decide (t.data <:+: n.data)

/-- The conversion `ToBoolean`, as used by `!!v`, `v || w` and `if (v)`. -/
def JsVal.truthy : JsVal → Bool
  | .undefined => false
  | .null => false
  | .bool b => b
  | .num (.fin q) _ => decide (q ≠ 0)
  | .num .nan _ => false
  | .num _ _ => true
  | .str s => decide (s ≠ "")
  | .obj _ => true

/-- The conversion `String(v)`. -/
def JsVal.toStr : JsVal → String
  | .undefined => "undefined"
  | .null => "null"
  | .bool true => "true"
  | .bool false => "false"
  | .num _ text => text
  | .str s => s
  | .obj text => text

/-! ### `Number(string)` -/

/-- The value of a digit in the given radix, if the character is one. -/
def digitOf (radix : Nat) (c : Char) : Option Nat :=
  let n := c.toNat
  let v : Option Nat :=
    if 48 ≤ n ∧ n ≤ 57 then some (n - 48)
    else if 97 ≤ n ∧ n ≤ 122 then some (n - 87)
    else if 65 ≤ n ∧ n ≤ 90 then some (n - 55)
    else none
  match v with
  | some d => if d < radix then some d else none
  | none => none

/-- Reads a maximal run of digits: the digits read (most significant first) and the rest. -/
def readDigits (radix : Nat) : List Char → List Nat × List Char
  | [] => ([], [])
  | c :: cs =>
    match digitOf radix c with
    | some d => let r := readDigits radix cs; (d :: r.1, r.2)
    | none => ([], c :: cs)

/-- The natural number written by a digit list. -/
def digitsValue (radix : Nat) (ds : List Nat) : Nat :=
  ds.foldl (fun acc d => acc * radix + d) 0

/-- Rounds an exact value into the double range: magnitudes from `2^1024 - 2^970` on are
infinite. -/
def JsNum.ofRat (q : ℚ) : JsNum :=
  let bound : ℚ := 2 ^ 1024 - 2 ^ 970
  if bound ≤ q then .posInf else if q ≤ -bound then .negInf else .fin q

/-- An optional exponent part followed by the end of the text: the exponent, or `none` when
what follows is not a well-formed exponent part. -/
def readExponent : List Char → Option Int
  | [] => some 0
  | c :: cs =>
    if c = 'e' ∨ c = 'E' then
      let (neg, rest) : Bool × List Char :=
        match cs with
        | '+' :: r => (false, r)
        | '-' :: r => (true, r)
        | r => (false, r)
      match readDigits 10 rest with
      | ([], _) => none
      | (ds, []) => some (if neg then -(digitsValue 10 ds : Int) else digitsValue 10 ds)
      | (_, _ :: _) => none
    else none

/-- An unsigned decimal literal (`12`, `12.`, `12.5`, `.5`, each with an optional exponent) or
`Infinity`. -/
def readUnsignedDecimal (l : List Char) : JsNum :=
  if l = "Infinity".data then .posInf
  else
    let (ip, r1) := readDigits 10 l
    let (fp, r2) : List Nat × List Char :=
      match r1 with
      | '.' :: r => readDigits 10 r
      | r => ([], r)
    let dotted : Bool := match r1 with
      | '.' :: _ => true
      | _ => false
    if ip = [] ∧ fp = [] then .nan
    else if ip = [] ∧ ¬ dotted then .nan
    else
      match readExponent r2 with
      | none => .nan
      | some e =>
        let m : ℚ := (digitsValue 10 ip : ℚ) + (digitsValue 10 fp : ℚ) / (10 : ℚ) ^ fp.length
        JsNum.ofRat (m * (10 : ℚ) ^ e)

/-- Negation of a number. -/
def JsNum.neg : JsNum → JsNum
  | .fin q => .fin (-q)
  | .nan => .nan
  | .posInf => .negInf
  | .negInf => .posInf

/-- A radix-prefixed integer literal body: at least one digit and nothing after. -/
def readRadix (radix : Nat) (l : List Char) : JsNum :=
  match readDigits radix l with
  | ([], _) => .nan
  | (ds, []) => JsNum.ofRat (digitsValue radix ds : ℚ)
  | (_, _ :: _) => .nan

/-- The abstract operation `StringToNumber`: trims, reads the empty text as `0`, and otherwise
reads a signed decimal literal or an unsigned binary, octal or hexadecimal integer literal.
The value of a literal is kept exact, where `Number` rounds it to the nearest double; whether
the result is finite, and every integer below `2 ^ 53`, are as in `Number`. -/
def stringToNumber (s : String) : JsNum :=
  match jsTrimChars s.data with
  | [] => .fin 0
  | '0' :: 'x' :: r => readRadix 16 r
  | '0' :: 'X' :: r => readRadix 16 r
  | '0' :: 'o' :: r => readRadix 8 r
  | '0' :: 'O' :: r => readRadix 8 r
  | '0' :: 'b' :: r => readRadix 2 r
  | '0' :: 'B' :: r => readRadix 2 r
  | '+' :: r => readUnsignedDecimal r
  | '-' :: r => (readUnsignedDecimal r).neg
  | r => readUnsignedDecimal r

/-- The conversion `Number(v)`. -/
def JsVal.toNumber : JsVal → JsNum
  | .undefined => .nan
  | .null => .fin 0
  | .bool true => .fin 1
  | .bool false => .fin 0
  | .num n _ => n
  | .str s => stringToNumber s
  | .obj text => stringToNumber text

/-- Embeds a nullable string. -/
def JsVal.ofOptStr : Option String → JsVal
  | none => .null
  | some s => .str s

/-- Embeds a nullable integer. -/
def JsVal.ofOptInt : Option Int → JsVal
  | none => .null
  | some n => .num (.fin n) (toString n)

/-! ## Configuration -/

/-- The fixed keys of the `states` object. -/
inductive SourceKey where
  | spotify
  | ytmusic
  | youtube
  | mpris
  | other
deriving DecidableEq, Repr

/-- The constants read from the environment at start-up, with their defaults.  `TM_SOURCES`
keeps the members of the configured set that are keys of `states`, in order; the others are
skipped by `isTamperFresh`. -/
structure Config where
  STALE_MS : Int := 15000
  TM_TTL_MS : Int := 12000
  TM_SOURCES : List SourceKey := [SourceKey.ytmusic, SourceKey.youtube]
  MPRIS_PREFER : List String := []

/-- The configuration obtained when no environment variable is set. -/
def defaultConfig : Config := {}

/-! ## State (multi-source) -/

/-- One entry of `states`. -/
structure SourceState where
  source : SourceKey
  title : Option String
  artist : Option String
  album : Option String
  year : Option ℚ
  url : Option String
  cover : Option String
  playing : Bool
  positionMs : Int
  durationMs : Int
  ts : Int
  _trackId : Option String
  _playerName : Option String
  _posBaseMs : Int
  _posBaseTs : Int
deriving DecidableEq

/-- The function `blankState`. -/
def blankState (source : SourceKey) : SourceState :=
  { source := source
    title := none
    artist := none
    album := none
    year := none
    url := none
    cover := none
    playing := false
    positionMs := 0
    durationMs := 0
    ts := 0
    _trackId := none
    _playerName := none
    _posBaseMs := 0
    _posBaseTs := 0 }

/-- The object `states`: one entry per key, in the key order of the object literal. -/
structure Store where
  spotify : SourceState
  ytmusic : SourceState
  youtube : SourceState
  mpris : SourceState
  other : SourceState
deriving DecidableEq

/-- The initial value of `states`. -/
def blankStore : Store :=
  { spotify := blankState .spotify
    ytmusic := blankState .ytmusic
    youtube := blankState .youtube
    mpris := blankState .mpris
    other := blankState .other }

/-- The property read `states[k]`. -/
def Store.get (st : Store) : SourceKey → SourceState
  | .spotify => st.spotify
  | .ytmusic => st.ytmusic
  | .youtube => st.youtube
  | .mpris => st.mpris
  | .other => st.other

/-- The assignment `states[k] = v`. -/
def Store.set (st : Store) (k : SourceKey) (v : SourceState) : Store :=
  match k with
  | .spotify => { st with spotify := v }
  | .ytmusic => { st with ytmusic := v }
  | .youtube => { st with youtube := v }
  | .mpris => { st with mpris := v }
  | .other => { st with other := v }

/-- The keys of `states` in iteration order. -/
def allKeys : List SourceKey :=
  [.spotify, .ytmusic, .youtube, .mpris, .other]

/-- The list `Object.values(states)`. -/
def Store.values (st : Store) : List SourceState :=
  [st.spotify, st.ytmusic, st.youtube, st.mpris, st.other]

/-- Every entry records its own key in `source` (true of `blankStore` and kept by every write). -/
def Store.WF (st : Store) : Prop :=
  ∀ k : SourceKey, (st.get k).source = k

/-- The function `normSource`. -/
def normSource (s : JsVal) : SourceKey :=
  let v := jsToLower (jsTrim (if s.truthy then s.toStr else ""))
  if v = "" then .other
  else if v = "spotify" then .spotify
  else if v = "ytmusic" ∨ v = "youtube_music" ∨ v = "youtubemusic" then .ytmusic
  else if v = "youtube" ∨ v = "yt" then .youtube
  else if v = "mpris" then .mpris
  else .other

/-- The function `clamp`. -/
def clamp (n lo hi : Int) : Int := min hi (max lo n)

/-- The function `cleanStr`, on a value whose conversion to text succeeds; `cleanStrRaw` is the
function on every parsed value, with the throwing case. -/
def cleanStr (v : JsVal) : Option String :=
  match v with
  | .undefined => none
  | .null => none
  | v =>
    let s := jsTrim v.toStr
    if s = "" then none else some s

/-- The expression `n || 0` on an integer. -/
def orZero (n : Int) : Int := if n = 0 then 0 else n

/-- The body of a report: every property is optional. -/
structure Body where
  source : JsVal := .undefined
  title : JsVal := .undefined
  artist : JsVal := .undefined
  album : JsVal := .undefined
  year : JsVal := .undefined
  url : JsVal := .undefined
  cover : JsVal := .undefined
  playing : JsVal := .undefined
  positionMs : JsVal := .undefined
  durationMs : JsVal := .undefined

/-- The expression `isFiniteNumber(v) ? Math.max(0, Math.floor(v)) : (prev || 0)`. -/
def floorOrPrev (v : JsVal) (prev : Int) : Int :=
  match v with
  | .num (.fin q) _ => max 0 (Int.floor q)
  | _ => orZero prev

/-- The function `sanitizeIncoming`, on a body whose conversions succeed; `now` is the value of
`Date.now()`.  `sanitizeIncomingRaw` is the function on every parsed body, with the throwing
case. -/
def sanitizeIncoming (b : Body) (prev : SourceState) (now : Int) : SourceState :=
  let playing := b.playing.truthy
  let positionMs := floorOrPrev b.positionMs prev.positionMs
  let durationMs := floorOrPrev b.durationMs prev.durationMs
  let pos2 := if durationMs > 0 then clamp positionMs 0 durationMs else positionMs
  { prev with
    source := prev.source
    title := (cleanStr b.title).orElse (fun _ => prev.title)
    artist := (cleanStr b.artist).orElse (fun _ => prev.artist)
    album := (cleanStr b.album).orElse (fun _ => prev.album)
    year := match b.year.toNumber with
      | .fin q => some q
      | _ => prev.year
    url := (cleanStr b.url).orElse (fun _ => prev.url)
    cover := (cleanStr b.cover).orElse (fun _ => prev.cover)
    playing := playing
    positionMs := pos2
    durationMs := durationMs
    ts := now }

/-- The handler of `POST /nowplaying` past the authorisation check, on a body whose conversions
succeed: the new `states`.  (A body on which a conversion throws ends the handler before the
assignment and leaves `states` as it is.) -/
def postNowPlaying (st : Store) (b : Body) (now : Int) : Store :=
  let sKey := normSource b.source
  st.set sKey (sanitizeIncoming b (st.get sKey) now)

/-! ## Staleness and arbitration -/

/-- The function `isTamperFresh`. -/
def isTamperFresh (cfg : Config) (st : Store) (now : Int) : Bool :=
  cfg.TM_SOURCES.any (fun k =>
    let s := st.get k
    decide (s.ts ≠ 0) && decide (now - s.ts ≤ cfg.TM_TTL_MS))

/-- An element of `list` in `pickActive`: the entry with `age` and `stale` added
(`age = none` stands for `Infinity`). -/
structure Entry extends SourceState where
  age : Option Int
  stale : Bool
deriving DecidableEq

/-- The callback of `.map` in `pickActive`. -/
def annotate (cfg : Config) (now : Int) (s : SourceState) : Entry :=
  let age : Option Int := if s.ts ≠ 0 then some (now - s.ts) else none
  let stale : Bool :=
    match age with
    | some a => decide (a > cfg.STALE_MS)
    | none => true
  { s with age := age, stale := stale }

/-- Insertion of `a` into a list ordered by `cmp`, before the first element it does not
follow. -/
def insertSorted {α : Type} (cmp : α → α → Int) (a : α) : List α → List α
  | [] => [a]
  | b :: l => if cmp a b ≤ 0 then a :: b :: l else b :: insertSorted cmp a l

/-- The method `Array.prototype.sort` with a comparator: a stable sort. -/
def jsSort {α : Type} (cmp : α → α → Int) : List α → List α
  | [] => []
  | a :: l => insertSorted cmp a (jsSort cmp l)

/-- The result of `pickActive`. -/
structure Picked where
  active : Option Entry
  stale : Bool
  reason : String
deriving DecidableEq

/-- The function `pickActive`. -/
def pickActive (cfg : Config) (st : Store) (now : Int) : Picked :=
  let suppressMpris := isTamperFresh cfg st now
  let list := (st.values.filter
    (fun s => !(suppressMpris && decide (s.source = SourceKey.mpris)))).map (annotate cfg now)
  let fresh := list.filter (fun s => !s.stale)
  let playingFresh := fresh.filter (fun s => s.playing)
  if playingFresh.length ≠ 0 then
    { active := (jsSort (fun a b => b.ts - a.ts) playingFresh).head?
      stale := false
      reason := "playing" }
  else if fresh.length ≠ 0 then
    { active := (jsSort (fun a b => b.ts - a.ts) fresh).head?
      stale := false
      reason := "paused" }
  else
    { active := none, stale := true, reason := "none" }

/-! ## Helpers for the client view -/

/-- The function `getExternalBase` depends on the request only; its result and the builtin
`encodeURIComponent` are given with the request. -/
structure Req where
  externalBase : String
  encodeURIComponent : String → String

/-- The function `coverForClient`. -/
def coverForClient (coverRaw : Option String) (req : Req) : Option String :=
  match cleanStr (JsVal.ofOptStr coverRaw) with
  | none => none
  | some c =>
    if "file://".data <+: c.data ∨ "http://".data <+: c.data then
      some (req.externalBase ++ "/cover?u=" ++ req.encodeURIComponent c)
    else some c

/-- The method `String.prototype.toUpperCase` (on the ASCII letters). -/
def jsToUpper (s : String) : String := String.mk (s.data.map Char.toUpper)

/-- The function `humanizeMprisName`: a key and a label. -/
def humanizeMprisName (name : Option String) : String × String :=
  let n := jsToLower (name.getD "")
  if jsIncludes n "vlc" then ("vlc", "VLC")
  else if jsIncludes n "spotify" then ("spotify", "Spotify")
  else if jsIncludes n "chrom" then ("chrome", "Chrome")
  else if jsIncludes n "brave" then ("brave", "Brave")
  else if jsIncludes n "vivaldi" then ("vivaldi", "Vivaldi")
  else if jsIncludes n "edge" then ("edge", "Edge")
  else if jsIncludes n "firefox" then ("firefox", "Firefox")
  else if jsIncludes n "mpv" then ("mpv", "mpv")
  else if jsIncludes n "kodi" then ("kodi", "Kodi")
  else if jsIncludes n "jellyfin" then ("jellyfin", "Jellyfin")
  else
    let last := (((n.splitOn ".").filter (fun x => decide (x ≠ ""))).getLast?).getD "mpris"
    (last, jsToUpper last)

/-- The function `clientSourceInfo` on an entry. -/
def clientSourceInfo (s : SourceState) : String × String :=
  match s.source with
  | .spotify => ("spotify", "Spotify")
  | .ytmusic => ("ytmusic", "YouTube Music")
  | .youtube => ("youtube", "YouTube")
  | .other => ("other", "Other")
  | .mpris => humanizeMprisName s._playerName

/-- The object built by `mapStateForClient`: the entry, with `cover` replaced and two
properties added. -/
structure ClientState (α : Type) where
  state : α
  cover : Option String
  clientSourceKey : String
  clientSourceLabel : String

/-- The function `mapStateForClient`; `view` reads the entry out of the object passed. -/
def mapStateForClient {α : Type} (view : α → SourceState) (s : Option α) (req : Req) :
    Option (ClientState α) :=
  match s with
  | none => none
  | some x =>
    let src := clientSourceInfo (view x)
    some { state := x
           cover := coverForClient (view x).cover req
           clientSourceKey := src.1
           clientSourceLabel := src.2 }

/-- The body of the answer of `GET /nowplaying`. -/
structure NowPlayingResponse where
  active : Option (ClientState Entry)
  stale : Bool
  reason : String
  ts : Int
  states : List (SourceKey × Option (ClientState SourceState))

/-- The object `Object.entries(states)`. -/
def Store.entries (st : Store) : List (SourceKey × SourceState) :=
  allKeys.map (fun k => (k, st.get k))

/-- The handler of `GET /nowplaying`; `now` and `now2` are its two clock readings. -/
def getNowPlaying (cfg : Config) (st : Store) (req : Req) (now now2 : Int) :
    NowPlayingResponse :=
  let picked := pickActive cfg st now
  let suppressMpris := isTamperFresh cfg st now
  let mappedStates := st.entries.map (fun kv =>
    (kv.1, if suppressMpris && decide (kv.1 = SourceKey.mpris) then none
           else mapStateForClient id (some kv.2) req))
  { active := mapStateForClient Entry.toSourceState picked.active req
    stale := picked.stale
    reason := picked.reason
    ts := now2
    states := mappedStates }

/-! ## MPRIS bridge -/

/-- A value of the map `mpris.players`, with integer-valued numeric properties. -/
structure PlayerSnapshot where
  name : String
  playing : Bool
  title : Option String
  artist : Option String
  album : Option String
  year : Option Int
  url : Option String
  cover : Option String
  durationMs : Int
  positionMs : Int
  trackId : Option String
  ts : Int
  _posBaseMs : Int
  _posBaseTs : Int
deriving DecidableEq

/-- The function `preferRank`. -/
def preferRank (cfg : Config) (name : String) : Int :=
  let n := jsToLower name
  if cfg.MPRIS_PREFER.length = 0 then 999
  else
    match cfg.MPRIS_PREFER.findIdx? (fun p => decide (p ≠ "") && jsIncludes n p) with
    | none => 999
    | some idx => idx

/-- The function `hintTerms`. -/
def hintTerms (hint : Option String) : List String :=
  let h := jsToLower (jsTrim (hint.getD ""))
  if h = "" then []
  else if h = "spotify" then ["spotify"]
  else if h = "youtube" ∨ h = "ytmusic" then
    ["firefox", "chrome", "chromium", "brave", "vivaldi", "edge"]
  else [h]

/-- The function `matchesHint`. -/
def matchesHint (name : String) (hint : Option String) : Bool :=
  let terms := hintTerms hint
  if terms.length = 0 then false
  else
    let n := jsToLower name
    terms.any (fun t => decide (t ≠ "") && jsIncludes n t)

/-- The comparator passed to `cand.sort` in `chooseMprisPlayer`. -/
def playerCmp (cfg : Config) (hint : Option String) (a b : PlayerSnapshot) : Int :=
  let ha : Int := if matchesHint a.name hint then 0 else 1
  let hb : Int := if matchesHint b.name hint then 0 else 1
  if ha ≠ hb then ha - hb
  else
    let ra := preferRank cfg a.name
    let rb := preferRank cfg b.name
    if ra ≠ rb then ra - rb
    else orZero b.ts - orZero a.ts

/-- The function `chooseMprisPlayer`; `players` is `[...mpris.players.values()]` and `now` the
clock reading. -/
def chooseMprisPlayer (cfg : Config) (players : List PlayerSnapshot) (hint : Option String)
    (now : Int) : Option PlayerSnapshot :=
  let arr := players
  if arr.length = 0 then none
  else
    let freshish := arr.filter
      (fun p => decide (p.ts ≠ 0) && decide (now - p.ts ≤ cfg.STALE_MS * 3))
    let base := if freshish.length ≠ 0 then freshish else arr
    let playing := base.filter (fun p => p.playing)
    let cand := if playing.length ≠ 0 then playing else base
    (jsSort (playerCmp cfg hint) cand).head?

/-- The expression `s || null` on a string. -/
def strOrNull (s : String) : Option String := if s = "" then none else some s

/-- The function `syncMprisToState`; `nowChoose` is the clock reading inside
`chooseMprisPlayer` and `now` the one taken after it. -/
def syncMprisToState (cfg : Config) (st : Store) (players : List PlayerSnapshot)
    (nowChoose now : Int) : Store :=
  match chooseMprisPlayer cfg players none nowChoose with
  | none => st
  | some chosen =>
    let pos0 := orZero chosen.positionMs
    let pos1 :=
      if chosen.playing ∧ chosen._posBaseTs ≠ 0 then
        orZero chosen._posBaseMs + (now - chosen._posBaseTs)
      else pos0
    let pos := if chosen.durationMs > 0 then clamp pos1 0 chosen.durationMs else max 0 pos1
    let positionMs := Int.floor (pos : ℚ)
    { st with
      mpris :=
        { st.mpris with
          title := cleanStr (JsVal.ofOptStr chosen.title)
          artist := cleanStr (JsVal.ofOptStr chosen.artist)
          album := cleanStr (JsVal.ofOptStr chosen.album)
          year := match (JsVal.ofOptInt chosen.year).toNumber with
            | .fin q => some q
            | _ => none
          url := cleanStr (JsVal.ofOptStr chosen.url)
          cover := cleanStr (JsVal.ofOptStr chosen.cover)
          playing := chosen.playing
          positionMs := positionMs
          durationMs := max 0 (Int.floor ((orZero chosen.durationMs : Int) : ℚ))
          ts := now
          _trackId := chosen.trackId.bind strOrNull
          _playerName := strOrNull chosen.name
          _posBaseMs := positionMs
          _posBaseTs := now } }

/-- The state of the bridge: the flag `mpris.ok` and the values of `mpris.players` in
insertion order (one per name). -/
structure Bridge where
  ok : Bool
  players : List PlayerSnapshot
deriving DecidableEq

/-- What the message bus answers during one `execMprisCommand`. -/
structure BusReply where
  ifacesOk : Bool
  canRaiseIsFalse : Bool
  callOk : Bool

/-- The clock readings of one command submission, in the order they are taken. -/
structure CommandClock where
  stamp : Int
  check : Int
  choose : Int
  base : Int
  touch : Int

/-- The assignment of the mutated `chosen` back under its name. -/
def setPlayer (players : List PlayerSnapshot) (p : PlayerSnapshot) : List PlayerSnapshot :=
  players.map (fun x => if x.name = p.name then p else x)

/-- The expression `Math.max(0, Math.floor(Number(value) || 0))`, when it is finite. -/
def seekTarget (value : JsVal) : Option Int :=
  match value.toNumber with
  | .fin q => some (max 0 (Int.floor q))
  | .nan => some 0
  | .negInf => some 0
  | .posInf => none

/-- The function `execMprisCommand`: the new bridge state and the value returned.  Every bus
call either succeeds or throws as `bus` says; an infinite seek target cannot be sent and counts
as a throwing call.  The two seek paths (`SetPosition` when a track id is known, `Seek`
otherwise) differ in the call made and update the snapshot alike. -/
def execMprisCommand (cfg : Config) (st : Store) (br : Bridge) (action : String)
    (value : JsVal) (clk : CommandClock) (bus : BusReply) : Bridge × Bool :=
  if ¬ br.ok then (br, false)
  else
    let hint := if action = "raise" then cleanStr value else none
    match chooseMprisPlayer cfg br.players hint clk.choose with
    | none => (br, false)
    | some chosen =>
      if ¬ bus.ifacesOk then (br, false)
      else if action = "raise" then
        if bus.canRaiseIsFalse then (br, false) else (br, bus.callOk)
      else if action = "toggle" ∨ action = "next" ∨ action = "prev" then (br, bus.callOk)
      else if action = "seek" then
        match seekTarget value with
        | none => (br, false)
        | some targetMs =>
          let chosen2 :=
            { chosen with
              positionMs := targetMs
              _posBaseMs := targetMs
              _posBaseTs := clk.base
              ts := clk.touch }
          let trackId := (chosen.trackId.bind strOrNull).orElse (fun _ => st.mpris._trackId)
          match trackId with
          | some _ =>
            if bus.callOk then ({ br with players := setPlayer br.players chosen2 }, true)
            else (br, false)
          | none =>
            if bus.callOk then ({ br with players := setPlayer br.players chosen2 }, true)
            else (br, false)
      else (br, false)

/-! ## Command channel -/

/-- The variable `cmd`. -/
structure Cmd where
  id : Nat
  action : Option String
  value : JsVal
  ts : Int
deriving DecidableEq

/-- The initial value of `cmd`. -/
def initialCmd : Cmd := { id := 0, action := none, value := .null, ts := 0 }

/-- The body of a command submission. -/
structure CmdBody where
  action : JsVal := .undefined
  value : JsVal := .undefined

/-- The answer of `POST /command`. -/
inductive CommandResponse where
  | missingAction
  | ok (cmd : Cmd) (executed : Bool)
deriving DecidableEq

/-- The server state a command submission can touch. -/
structure CommandState where
  cmd : Cmd
  bridge : Bridge
deriving DecidableEq

/-- The expression `String(b.action || "").trim()`. -/
def submittedAction (b : CmdBody) : String :=
  jsTrim (if b.action.truthy then b.action.toStr else "")

/-- The expression `b.value ?? null`. -/
def submittedValue (b : CmdBody) : JsVal :=
  match b.value with
  | .undefined => JsVal.null
  | v => v

/-- The handler of `POST /command` past the authorisation check. -/
def postCommand (cfg : Config) (st : Store) (cs : CommandState) (b : CmdBody)
    (clk : CommandClock) (bus : BusReply) : CommandState × CommandResponse :=
  let action := submittedAction b
  let value := submittedValue b
  if action = "" then (cs, .missingAction)
  else
    let cmd : Cmd := { id := cs.cmd.id + 1, action := some action, value := value, ts := clk.stamp }
    let r : Bridge × Bool :=
      if isTamperFresh cfg st clk.check then (cs.bridge, false)
      else execMprisCommand cfg st cs.bridge action value clk bus
    ({ cmd := cmd, bridge := r.1 }, .ok cmd r.2)

/-- The comparison `id <= since` of a command id with a number. -/
def idLeNum (id : Nat) : JsNum → Bool
  | .fin q => decide ((id : ℚ) ≤ q)
  | .nan => false
  | .posInf => true
  | .negInf => false

/-- The expression `Number(req.query.since || 0)`. -/
def sinceNumber (since : JsVal) : JsNum :=
  (if since.truthy then since else JsVal.num (.fin 0) "0").toNumber

/-- The handler of `GET /command`: `none` is the empty 204 answer. -/
def getCommand (cmd : Cmd) (since : JsVal) : Option Cmd :=
  if idLeNum cmd.id (sinceNumber since) then none else some cmd

/-! ## Runs of the server -/

/-- A write to the store: a report arriving at `POST /nowplaying`, or a projection tick of the
bridge over the snapshots it holds at that moment. -/
inductive Event where
  | report (b : Body) (now : Int)
  | tick (players : List PlayerSnapshot) (nowChoose now : Int)

/-- The effect of one event on `states`. -/
def step (cfg : Config) (st : Store) : Event → Store
  | .report b now => postNowPlaying st b now
  | .tick players nowChoose now => syncMprisToState cfg st players nowChoose now

/-- The effect of a sequence of events, oldest first. -/
def run (cfg : Config) (st : Store) (es : List Event) : Store :=
  es.foldl (step cfg) st

/-- One command submission with what surrounds it: the store at that moment, the body, the
clock readings and the answers of the bus. -/
structure Submission where
  st : Store
  body : CmdBody
  clk : CommandClock
  bus : BusReply

/-- The effect of a sequence of submissions, oldest first, with the answers given. -/
def runCommands (cfg : Config) : CommandState → List Submission →
    CommandState × List CommandResponse
  | cs, [] => (cs, [])
  | cs, s :: rest =>
    let r := postCommand cfg s.st cs s.body s.clk s.bus
    let r2 := runCommands cfg r.1 rest
    (r2.1, r.2 :: r2.2)

/-- The id of the record carried by an answer. -/
def CommandResponse.cmdId : CommandResponse → Option Nat
  | .missingAction => none
  | .ok cmd _ => some cmd.id

/-! ## Vocabulary of the statements -/

/-- The freshness test of `pickActive`: the entry has been written and its age is at most
`STALE_MS`. -/
def isFreshAt (cfg : Config) (now : Int) (s : SourceState) : Prop :=
  s.ts ≠ 0 ∧ now - s.ts ≤ cfg.STALE_MS

instance (cfg : Config) (now : Int) (s : SourceState) : Decidable (isFreshAt cfg now s) := by
  unfold isFreshAt; infer_instance

/-- The candidates of arbitration: every entry of the store, except the one of the bridge
(source `mpris`) while tamper suppression is active. -/
def isCandidate (cfg : Config) (st : Store) (now : Int) (s : SourceState) : Prop :=
  s ∈ st.values ∧ ¬ (isTamperFresh cfg st now = true ∧ s.source = SourceKey.mpris)

instance (cfg : Config) (st : Store) (now : Int) (s : SourceState) :
    Decidable (isCandidate cfg st now s) := by
  unfold isCandidate; infer_instance

/-- The first element of a list that no later-or-earlier element strictly precedes under
`cmp`, scanning from the right as `jsSort` inserts. -/
def firstMin {α : Type} (cmp : α → α → Int) : List α → Option α
  | [] => none
  | a :: l =>
    match firstMin cmp l with
    | none => some a
    | some b => if cmp a b ≤ 0 then some a else some b

/-- The list `fresh` of `pickActive`, before annotation. -/
def freshList (cfg : Config) (st : Store) (now : Int) : List SourceState :=
  (st.values.filter
    (fun s => !(isTamperFresh cfg st now && decide (s.source = SourceKey.mpris)))).filter
    (fun s => decide (isFreshAt cfg now s))

/-- The list `playingFresh` of `pickActive`, before annotation. -/
def playingFreshList (cfg : Config) (st : Store) (now : Int) : List SourceState :=
  (freshList cfg st now).filter (fun s => s.playing)

/-! ## Concrete stores used to exercise the statements -/

/-- A store in which spotify (written at 1000) and ytmusic (written at 2000) both play. -/
def storeTwoPlaying : Store :=
  { blankStore with
    spotify := { blankState .spotify with playing := true, ts := 1000 }
    ytmusic := { blankState .ytmusic with playing := true, ts := 2000 } }

/-- A store in which only spotify has been written (at 1000) and is paused. -/
def storeOnePaused : Store :=
  { blankStore with spotify := { blankState .spotify with ts := 1000 } }

/-- A store in which ytmusic (written at 1000) is paused and the bridge entry (written at 2000)
plays. -/
def storeBridgePlaying : Store :=
  { blankStore with
    ytmusic := { blankState .ytmusic with ts := 1000 }
    mpris := { blankState .mpris with playing := true, ts := 2000 } }

/-- A store in which spotify (written at 1000) plays and ytmusic (written later, at 2000) is
paused. -/
def storeOlderPlaying : Store :=
  { blankStore with
    spotify := { blankState .spotify with playing := true, ts := 1000 }
    ytmusic := { blankState .ytmusic with ts := 2000 } }

/-- A store in which youtube was written at 1000 and the bridge entry, playing, at 2500. -/
def storeTrustedAndBridge : Store :=
  { blankStore with
    youtube := { blankState .youtube with ts := 1000 }
    mpris := { blankState .mpris with playing := true, ts := 2500 } }

/-- A request context whose encoder is the identity. -/
def plainReq : Req := { externalBase := "http://host", encodeURIComponent := id }

/-- The first report of the end-to-end scenario. -/
def spotifyReport : Body :=
  { source := .str "spotify"
    playing := .bool true
    positionMs := .num (.fin 1000) "1000"
    durationMs := .num (.fin 200000) "200000" }

/-- The second report of the end-to-end scenario. -/
def ytmusicReport : Body :=
  { source := .str "ytmusic", playing := .bool true }

/-- The range invariant of an entry: the position is not negative, and not above a known
duration. -/
def positionInRange (s : SourceState) : Prop :=
  0 ≤ s.positionMs ∧ (0 < s.durationMs → s.positionMs ≤ s.durationMs)

instance (s : SourceState) : Decidable (positionInRange s) := by
  unfold positionInRange; infer_instance

/-- The string-valued scalar fields of a report. -/
inductive StrField where
  | title
  | artist
  | album
  | url
  | cover
deriving DecidableEq

/-- The value of a string field in a report body. -/
def StrField.ofBody : StrField → Body → JsVal
  | .title, b => b.title
  | .artist, b => b.artist
  | .album, b => b.album
  | .url, b => b.url
  | .cover, b => b.cover

/-- The value of a string field in an entry. -/
def StrField.ofState : StrField → SourceState → Option String
  | .title, s => s.title
  | .artist, s => s.artist
  | .album, s => s.album
  | .url, s => s.url
  | .cover, s => s.cover

/-- A report whose position exceeds its duration. -/
def overshootReport : Body :=
  { source := .str "spotify"
    positionMs := .num (.fin 500000) "500000"
    durationMs := .num (.fin 200000) "200000" }

/-- A playing snapshot of a local player, refreshed at 1000 at position 10000 of 12000. -/
def vlcSnapshot : PlayerSnapshot :=
  { name := "org.mpris.MediaPlayer2.vlc"
    playing := true
    title := some "Song"
    artist := none
    album := none
    year := none
    url := none
    cover := none
    durationMs := 12000
    positionMs := 10000
    trackId := none
    ts := 1000
    _posBaseMs := 10000
    _posBaseTs := 1000 }

/-- An entry with a title and a year already set. -/
def namedState : SourceState :=
  { blankState .spotify with title := some "Old", year := some 1999, ts := 500 }

/-- A report with a padded title and a non-numeric year. -/
def paddedReport : Body :=
  { title := .str " a ", year := .str "abc" }

/-- A report with a numeric year and an empty title. -/
def yearReport : Body :=
  { title := .str "  ", artist := .str "Band", year := .num (.fin 2020) "2020" }

/-- Three accepted submissions. -/
def threeSubmissions : List Submission :=
  [ { st := blankStore, body := { action := .str "toggle" }
      clk := { stamp := 10, check := 10, choose := 10, base := 10, touch := 10 }
      bus := { ifacesOk := true, canRaiseIsFalse := false, callOk := true } },
    { st := blankStore, body := { action := .str "next" }
      clk := { stamp := 20, check := 20, choose := 20, base := 20, touch := 20 }
      bus := { ifacesOk := true, canRaiseIsFalse := false, callOk := true } },
    { st := blankStore, body := { action := .str " seek ", value := .num (.fin 5000) "5000" }
      clk := { stamp := 30, check := 30, choose := 30, base := 30, touch := 30 }
      bus := { ifacesOk := true, canRaiseIsFalse := false, callOk := true } } ]

/-- A bridge holding one player. -/
def oneBridge : Bridge := { ok := true, players := [vlcSnapshot] }

/-- A seek submission. -/
def seekBody : CmdBody := { action := .str "seek", value := .num (.fin 5000) "5000" }

/-- The clock readings of a submission made at 3000. -/
def clockAt3000 : CommandClock :=
  { stamp := 3000, check := 3000, choose := 3000, base := 3000, touch := 3000 }

/-- A bus on which every call succeeds. -/
def goodBus : BusReply := { ifacesOk := true, canRaiseIsFalse := false, callOk := true }

/-! ## Vocabulary of the statements on empty and malformed reports -/

/-- A value that gives a string field nothing to store: absent, null, or of empty text once
trimmed. -/
def blankText (v : JsVal) : Prop :=
  v = .undefined ∨ v = .null ∨ jsTrim v.toStr = ""

instance (v : JsVal) : Decidable (blankText v) := by
  unfold blankText; infer_instance

/-- A value that is not a finite number (absent, or of another type). -/
def notFiniteNumber (v : JsVal) : Prop :=
  ∀ q t, v ≠ .num (.fin q) t

/-- A value that `Number` does not convert to a finite number (absent, or a text that is not a
numeric literal). -/
def notNumeric (v : JsVal) : Prop :=
  ∀ q, v.toNumber ≠ .fin q

/-- A report none of whose scalar and numeric fields is usable. -/
def Body.unusable (b : Body) : Prop :=
  (∀ f : StrField, blankText (f.ofBody b)) ∧ notFiniteNumber b.positionMs ∧
    notFiniteNumber b.durationMs ∧ notNumeric b.year

/-- A report whose fields are all malformed. -/
def malformedReport : Body :=
  { title := .str "   "
    artist := .null
    album := .str ""
    year := .str "abc"
    url := .obj ""
    cover := .null
    playing := .str "no"
    positionMs := .str "12"
    durationMs := .bool true }

/-! ## Vocabulary and inputs of the statements on the bridge -/

/-- The narrowing test of `chooseMprisPlayer`: the snapshot has a refresh time, at most
`3 * STALE_MS` before `now`. -/
def isFreshish (cfg : Config) (now : Int) (p : PlayerSnapshot) : Prop :=
  p.ts ≠ 0 ∧ now - p.ts ≤ cfg.STALE_MS * 3

instance (cfg : Config) (now : Int) (p : PlayerSnapshot) : Decidable (isFreshish cfg now p) := by
  unfold isFreshish; infer_instance

/-- The snapshot `vlcSnapshot` with an unknown duration. -/
def untimedSnapshot : PlayerSnapshot := { vlcSnapshot with durationMs := 0 }

/-- A playing snapshot of a player named spotify, refreshed at 1000. -/
def spotifySnapshot : PlayerSnapshot :=
  { name := "org.mpris.MediaPlayer2.spotify"
    playing := true
    title := some "Track"
    artist := none
    album := none
    year := none
    url := none
    cover := none
    durationMs := 180000
    positionMs := 0
    trackId := none
    ts := 1000
    _posBaseMs := 0
    _posBaseTs := 1000 }

/-- A paused snapshot of a browser, refreshed at 100000. -/
def firefoxSnapshot : PlayerSnapshot :=
  { name := "org.mpris.MediaPlayer2.firefox.instance1"
    playing := false
    title := some "Video"
    artist := none
    album := none
    year := none
    url := none
    cover := none
    durationMs := 0
    positionMs := 0
    trackId := none
    ts := 100000
    _posBaseMs := 0
    _posBaseTs := 100000 }

/-- A paused snapshot of a player named spotify, refreshed at 3000. -/
def pausedSpotifySnapshot : PlayerSnapshot :=
  { spotifySnapshot with playing := false, ts := 3000, _posBaseTs := 3000 }

/-- A configuration whose preference list ranks spotify first. -/
def spotifyFirstConfig : Config := { MPRIS_PREFER := ["spotify"] }

/-! ## Metadata normalisation -/

/-- A value found in the metadata map once unwrapped: an array of values, or anything else.  A
`BigInt` is represented by the number it converts to. -/
inductive MdVal where
  | scalar (v : JsVal)
  | array (items : List JsVal)
deriving DecidableEq

/-- A property of the metadata map as received: a plain value, or an object with a `value`
property (a tagged variant) holding one. -/
inductive MdProp where
  | plain (v : MdVal)
  | variant (value : MdVal)
deriving DecidableEq

/-- The function `variantVal`. -/
def variantVal : MdProp → MdVal
  | .plain v => v
  | .variant value => value

/-- The text of an element inside `String(array)`: empty for `null` and `undefined`. -/
def elementText : JsVal → String
  | .undefined => ""
  | .null => ""
  | v => v.toStr

/-- The conversion `String(array)`: the texts of the elements joined by commas. -/
def arrayText (items : List JsVal) : String :=
  ",".intercalate (items.map elementText)

/-- An unwrapped value as seen by `String`, `Number` and truthiness tests: an array behaves as
an object whose text is `arrayText`. -/
def MdVal.toJs : MdVal → JsVal
  | .scalar v => v
  | .array items => .obj (arrayText items)

/-- The function `asNumber`, on values whose `valueOf` does not throw. -/
def asNumber (x : MdVal) : JsNum :=
  match x.toJs with
  | .undefined => .fin 0
  | .null => .fin 0
  | v => v.toNumber

/-- The class `\w` of a regular expression without the unicode flag. -/
def isWordChar (c : Char) : Bool :=
  let n := c.toNat
  (48 ≤ n && n ≤ 57) || (65 ≤ n && n ≤ 90) || (97 ≤ n && n ≤ 122) || n == 95

/-- The class `\d`. -/
def isDigitChar (c : Char) : Bool :=
  let n := c.toNat
  48 ≤ n && n ≤ 57

/-- A match of `(19\d{2}|20\d{2})\b` at the head of the text: the number the four digits
write. -/
def yearAtHead : List Char → Option Int
  | a :: b :: c :: d :: rest =>
    if ((a = '1' ∧ b = '9') ∨ (a = '2' ∧ b = '0')) ∧ isDigitChar c = true ∧
        isDigitChar d = true ∧
        (match rest with
          | [] => true
          | e :: _ => !isWordChar e) = true then
      some (((a.toNat - 48) * 1000 + (b.toNat - 48) * 100 + (c.toNat - 48) * 10 +
        (d.toNat - 48) : Nat) : Int)
    else none
  | _ => none

/-- The first match of `/\b(19\d{2}|20\d{2})\b/` in the rest of a text, scanning from the
left; `prevWord` tells whether the character before the rest is a word character. -/
def findYear (prevWord : Bool) : List Char → Option Int
  | [] => none
  | c :: cs =>
    match (if prevWord then none else yearAtHead (c :: cs)) with
    | some y => some y
    | none => findYear (isWordChar c) cs

/-- The function `yearFromAny`. -/
def yearFromAny (x : MdProp) : Option Int :=
  match cleanStr (variantVal x).toJs with
  | none => none
  | some v => findYear false v.data

/-- The metadata map `md`, by the keys `parseMetadata` reads (`xesam:title` is `xesam_title`,
and so on); an absent key reads as `undefined`. -/
structure Metadata where
  xesam_title : MdProp := .plain (.scalar .undefined)
  xesam_album : MdProp := .plain (.scalar .undefined)
  xesam_date : MdProp := .plain (.scalar .undefined)
  xesam_contentCreated : MdProp := .plain (.scalar .undefined)
  xesam_comment : MdProp := .plain (.scalar .undefined)
  xesam_artist : MdProp := .plain (.scalar .undefined)
  xesam_url : MdProp := .plain (.scalar .undefined)
  mpris_artUrl : MdProp := .plain (.scalar .undefined)
  mpris_length : MdProp := .plain (.scalar .undefined)
  mpris_trackid : MdProp := .plain (.scalar .undefined)

/-- The object returned by `parseMetadata`. -/
structure ParsedMetadata where
  title : Option String
  artist : Option String
  album : Option String
  year : Option Int
  url : Option String
  cover : Option String
  durationMs : JsNum
  trackId : Option MdVal
deriving DecidableEq

/-- The expression `a || b` on two nullable numbers: `a` when it is a number other than 0. -/
def orNumber (a b : Option Int) : Option Int :=
  match a with
  | some n => if n ≠ 0 then some n else b
  | none => b

/-- The expression `lengthUs > 0 ? Math.floor(lengthUs / 1000) : 0`. -/
def lengthToMs : JsNum → JsNum
  | .fin q => if q > 0 then .fin (Int.floor (q / 1000)) else .fin 0
  | .posInf => .posInf
  | .nan => .fin 0
  | .negInf => .fin 0

/-- The function `parseMetadata`. -/
def parseMetadata (md : Metadata) : ParsedMetadata :=
  let title := cleanStr (variantVal md.xesam_title).toJs
  let album := cleanStr (variantVal md.xesam_album).toJs
  let year :=
    orNumber (yearFromAny md.xesam_date)
      (orNumber (yearFromAny md.xesam_contentCreated)
        (orNumber (yearFromAny md.xesam_comment) none))
  let artist : Option String :=
    match variantVal md.xesam_artist with
    | .array artists =>
      let a := (artists.map cleanStr).filterMap id
      if a.length ≠ 0 then some (", ".intercalate a) else none
    | .scalar artists => cleanStr artists
  let url :=
    (cleanStr (variantVal md.xesam_url).toJs).orElse
      (fun _ => cleanStr (variantVal md.xesam_comment).toJs)
  let cover := cleanStr (variantVal md.mpris_artUrl).toJs
  let lengthUs := asNumber (variantVal md.mpris_length)
  let durationMs := lengthToMs lengthUs
  let trackId :=
    if (variantVal md.mpris_trackid).toJs.truthy then some (variantVal md.mpris_trackid)
    else none
  { title := title, artist := artist, album := album, year := year, url := url
    cover := cover, durationMs := durationMs, trackId := trackId }

/-- A metadata map whose date, creation date and comment each hold a year. -/
def datedMetadata : Metadata :=
  { xesam_date := .variant (.scalar (.str "2021-05-01T00:00:00"))
    xesam_contentCreated := .variant (.scalar (.str "2019"))
    xesam_comment := .variant (.array [.str "recorded 1987", .str "live"]) }

/-- A metadata map without a date, whose creation date holds no year and whose comment holds
one. -/
def commentedMetadata : Metadata :=
  { xesam_contentCreated := .variant (.scalar (.str "id20211x"))
    xesam_comment := .variant (.array [.str "recorded 1987", .str "live"]) }

/-! ## Vocabulary and inputs of the statements on ties and on suppression -/

/-- The position of a key in the iteration order of `states`. -/
def SourceKey.index : SourceKey → Nat
  | .spotify => 0
  | .ytmusic => 1
  | .youtube => 2
  | .mpris => 3
  | .other => 4

/-- The winning class of arbitration: the fresh playing candidates when there is one, the fresh
candidates otherwise. -/
def isWinner (cfg : Config) (st : Store) (now : Int) (s : SourceState) : Prop :=
  isCandidate cfg st now s ∧ isFreshAt cfg now s ∧
    ((∃ x, isCandidate cfg st now x ∧ isFreshAt cfg now x ∧ x.playing = true) →
      s.playing = true)

/-- A store in which spotify and ytmusic both play and were both written at 1000, and youtube,
paused, was written at 2000. -/
def storeTie : Store :=
  { blankStore with
    spotify := { blankState .spotify with playing := true, ts := 1000 }
    ytmusic := { blankState .ytmusic with playing := true, ts := 1000 }
    youtube := { blankState .youtube with ts := 2000 } }

/-- A configuration whose trusted set is the bridge key itself. -/
def selfTrustConfig : Config := { TM_SOURCES := [SourceKey.mpris] }

/-- A store in which only the bridge entry has been written (at 1000) and plays. -/
def storeBridgeOnly : Store :=
  { blankStore with mpris := { blankState .mpris with playing := true, ts := 1000 } }

/-! ## Reports as parsed, with the values on which a conversion throws -/

/-- A value of a parsed body as the code meets it: a value whose conversions succeed, or an
object or array on which `String(v)` and `Number(v)` throw a `TypeError`, such as the parsed
`{"toString": 0}`.  Such a value is truthy and is not of type number. -/
inductive RawVal where
  | plain (v : JsVal)
  | hostile
deriving DecidableEq

/-- The outcome of an evaluation that may throw. -/
inductive Outcome (α : Type) where
  | returned (a : α)
  | threw
deriving DecidableEq

/-- Sequencing: what follows runs on the value returned, and a throw ends the evaluation. -/
def Outcome.andThen {α β : Type} (x : Outcome α) (f : α → Outcome β) : Outcome β :=
  match x with
  | .returned a => f a
  | .threw => .threw

/-- The conversion `ToBoolean`, which never throws. -/
def RawVal.truthy : RawVal → Bool
  | .plain v => v.truthy
  | .hostile => true

/-- The conversion `String(v)`. -/
def RawVal.toStr : RawVal → Outcome String
  | .plain v => .returned v.toStr
  | .hostile => .threw

/-- The conversion `Number(v)`. -/
def RawVal.toNumber : RawVal → Outcome JsNum
  | .plain v => .returned v.toNumber
  | .hostile => .threw

/-- The function `cleanStr` on a parsed value. -/
def cleanStrRaw (v : RawVal) : Outcome (Option String) :=
  match v with
  | .plain .undefined => .returned none
  | .plain .null => .returned none
  | v =>
    v.toStr.andThen (fun t =>
      let s := jsTrim t
      .returned (if s = "" then none else some s))

/-- The expression `isFiniteNumber(v) ? Math.max(0, Math.floor(v)) : (prev || 0)` on a parsed
value; the type test converts nothing. -/
def floorOrPrevRaw (v : RawVal) (prev : Int) : Int :=
  match v with
  | .plain (.num (.fin q) _) => max 0 (Int.floor q)
  | _ => orZero prev

/-- The body of a report as parsed. -/
structure RawBody where
  source : RawVal := .plain .undefined
  title : RawVal := .plain .undefined
  artist : RawVal := .plain .undefined
  album : RawVal := .plain .undefined
  year : RawVal := .plain .undefined
  url : RawVal := .plain .undefined
  cover : RawVal := .plain .undefined
  playing : RawVal := .plain .undefined
  positionMs : RawVal := .plain .undefined
  durationMs : RawVal := .plain .undefined

/-- The function `sanitizeIncoming` on a parsed body: the object returned, or a throw from one
of the conversions, taken in the order of the object literal. -/
def sanitizeIncomingRaw (b : RawBody) (prev : SourceState) (now : Int) : Outcome SourceState :=
  let playing := b.playing.truthy
  let positionMs := floorOrPrevRaw b.positionMs prev.positionMs
  let durationMs := floorOrPrevRaw b.durationMs prev.durationMs
  let pos2 := if durationMs > 0 then clamp positionMs 0 durationMs else positionMs
  (cleanStrRaw b.title).andThen (fun title =>
  (cleanStrRaw b.artist).andThen (fun artist =>
  (cleanStrRaw b.album).andThen (fun album =>
  b.year.toNumber.andThen (fun year =>
  (cleanStrRaw b.url).andThen (fun url =>
  (cleanStrRaw b.cover).andThen (fun cover =>
    .returned
      { prev with
        source := prev.source
        title := title.orElse (fun _ => prev.title)
        artist := artist.orElse (fun _ => prev.artist)
        album := album.orElse (fun _ => prev.album)
        year := match year with
          | .fin q => some q
          | _ => prev.year
        url := url.orElse (fun _ => prev.url)
        cover := cover.orElse (fun _ => prev.cover)
        playing := playing
        positionMs := pos2
        durationMs := durationMs
        ts := now }))))))

/-- A body whose conversions succeed, as a parsed body. -/
def Body.toRaw (b : Body) : RawBody :=
  { source := .plain b.source
    title := .plain b.title
    artist := .plain b.artist
    album := .plain b.album
    year := .plain b.year
    url := .plain b.url
    cover := .plain b.cover
    playing := .plain b.playing
    positionMs := .plain b.positionMs
    durationMs := .plain b.durationMs }

/-- The value of a string field in a parsed body. -/
def StrField.ofRaw : StrField → RawBody → RawVal
  | .title, b => b.title
  | .artist, b => b.artist
  | .album, b => b.album
  | .url, b => b.url
  | .cover, b => b.cover

/-- A parsed value that is not a finite number (absent, or of another type, objects
included). -/
def rawNotFiniteNumber (v : RawVal) : Prop :=
  ∀ q t, v ≠ .plain (.num (.fin q) t)

/-- A parsed report none of whose scalar and numeric fields is usable: every string field
converts to a blank text or is absent or null, `positionMs` and `durationMs` are not finite
numbers, and `year` converts to something that is not a finite number. -/
def RawBody.unusable (b : RawBody) : Prop :=
  (∀ f : StrField, ∃ v, f.ofRaw b = .plain v ∧ blankText v) ∧
    rawNotFiniteNumber b.positionMs ∧ rawNotFiniteNumber b.durationMs ∧
    ∃ v, b.year = .plain v ∧ notNumeric v

/-- A parsed report whose fields are all malformed, with objects in the fields that are not
converted. -/
def malformedRawReport : RawBody :=
  { title := .plain (.str "   ")
    artist := .plain .null
    album := .plain (.str "")
    year := .plain (.str "abc")
    url := .plain (.obj "")
    cover := .plain .null
    playing := .hostile
    positionMs := .hostile
    durationMs := .plain (.bool true) }

/-! ## Lemmas on the sort -/

theorem head?_insertSorted {α : Type} (cmp : α → α → Int) (a : α) (l : List α) :
    (insertSorted cmp a l).head? =
      match l.head? with
      | none => some a
      | some b => if cmp a b ≤ 0 then some a else some b := by
  cases l with
  | nil => rfl
  | cons b l =>
    simp only [insertSorted, List.head?_cons]
    split <;> rfl

theorem head?_jsSort {α : Type} (cmp : α → α → Int) (l : List α) :
    (jsSort cmp l).head? = firstMin cmp l := by
  induction l with
  | nil => rfl
  | cons a l ih =>
    simp only [jsSort, firstMin, head?_insertSorted, ih]

theorem firstMin_isSome {α : Type} (cmp : α → α → Int) (l : List α) (h : l ≠ []) :
    ∃ a, firstMin cmp l = some a := by
  cases l with
  | nil => exact absurd rfl h
  | cons a l =>
    simp only [firstMin]
    cases firstMin cmp l with
    | none => exact ⟨a, rfl⟩
    | some b =>
      by_cases hc : cmp a b ≤ 0
      · exact ⟨a, by simp [hc]⟩
      · exact ⟨b, by simp [hc]⟩

theorem firstMin_mem {α : Type} (cmp : α → α → Int) (l : List α) (a : α)
    (h : firstMin cmp l = some a) : a ∈ l := by
  induction l generalizing a with
  | nil => simp [firstMin] at h
  | cons x l ih =>
    simp only [firstMin] at h
    cases hm : firstMin cmp l with
    | none =>
      rw [hm] at h
      simp only [Option.some.injEq] at h
      simp [h]
    | some b =>
      rw [hm] at h
      by_cases hc : cmp x b ≤ 0
      · simp only [hc, if_true, Option.some.injEq] at h
        simp [h]
      · simp only [hc, if_false, Option.some.injEq] at h
        subst h
        exact List.mem_cons_of_mem _ (ih b hm)

/-- For a comparator `key b - key a` (descending by key), the selected element has the largest
key. -/
theorem firstMin_desc_max {α : Type} (key : α → Int) (l : List α) (a : α)
    (h : firstMin (fun x y => key y - key x) l = some a) : ∀ b ∈ l, key b ≤ key a := by
  induction l generalizing a with
  | nil => simp [firstMin] at h
  | cons x l ih =>
    simp only [firstMin] at h
    cases hm : firstMin (fun x y => key y - key x) l with
    | none =>
      rw [hm] at h
      simp only [Option.some.injEq] at h
      subst h
      cases l with
      | nil => simp
      | cons y l =>
        obtain ⟨c, hc⟩ := firstMin_isSome (fun x y => key y - key x) (y :: l) (by simp)
        rw [hc] at hm
        cases hm
    | some b =>
      rw [hm] at h
      have hb := ih b hm
      by_cases hc : key b - key x ≤ 0
      · simp only [hc, if_true, Option.some.injEq] at h
        subst h
        intro c hcm
        rcases List.mem_cons.1 hcm with rfl | hcl
        · exact le_refl _
        · have := hb c hcl
          omega
      · simp only [hc, if_false, Option.some.injEq] at h
        subst h
        intro c hcm
        rcases List.mem_cons.1 hcm with rfl | hcl
        · omega
        · exact hb c hcl

/-! ## Lemmas on `pickActive` -/

theorem annotate_toSourceState (cfg : Config) (now : Int) (s : SourceState) :
    (annotate cfg now s).toSourceState = s := rfl

theorem annotate_stale (cfg : Config) (now : Int) (s : SourceState) :
    (annotate cfg now s).stale = false ↔ isFreshAt cfg now s := by
  unfold annotate isFreshAt
  by_cases h : s.ts = 0
  · simp [h]
  · simp [h]

theorem mem_freshList (cfg : Config) (st : Store) (now : Int) (s : SourceState) :
    s ∈ freshList cfg st now ↔ isCandidate cfg st now s ∧ isFreshAt cfg now s := by
  cases h : isTamperFresh cfg st now
  · simp [freshList, isCandidate, List.mem_filter, h]
  · simp [freshList, isCandidate, List.mem_filter, h]
    tauto

theorem firstMin_map {α β : Type} (f : α → β) (cmp : β → β → Int) (l : List α) :
    firstMin cmp (l.map f) = (firstMin (fun a b => cmp (f a) (f b)) l).map f := by
  induction l with
  | nil => rfl
  | cons x l ih =>
    simp only [List.map_cons, firstMin, ih]
    cases firstMin (fun a b => cmp (f a) (f b)) l with
    | none => rfl
    | some b =>
      simp only [Option.map_some']
      split <;> rfl

theorem mem_playingFreshList (cfg : Config) (st : Store) (now : Int) (s : SourceState) :
    s ∈ playingFreshList cfg st now ↔
      isCandidate cfg st now s ∧ isFreshAt cfg now s ∧ s.playing = true := by
  simp [playingFreshList, List.mem_filter, mem_freshList, and_assoc]

/-- The function `pickActive` in terms of the two filtered lists. -/
theorem pickActive_eq (cfg : Config) (st : Store) (now : Int) :
    pickActive cfg st now =
      if playingFreshList cfg st now ≠ [] then
        { active := (firstMin (fun a b => b.ts - a.ts) (playingFreshList cfg st now)).map
            (annotate cfg now)
          stale := false
          reason := "playing" }
      else if freshList cfg st now ≠ [] then
        { active := (firstMin (fun a b => b.ts - a.ts) (freshList cfg st now)).map
            (annotate cfg now)
          stale := false
          reason := "paused" }
      else { active := none, stale := true, reason := "none" } := by
  have hst : ((fun s : Entry => !s.stale) ∘ annotate cfg now) =
      fun s => decide (isFreshAt cfg now s) := by
    funext s
    by_cases h : isFreshAt cfg now s
    · simp [h, (annotate_stale cfg now s).2 h]
    · have : (annotate cfg now s).stale = true := by
        cases hs : (annotate cfg now s).stale
        · exact absurd ((annotate_stale cfg now s).1 hs) h
        · rfl
      simp [h, this]
  have hpl : ((fun s : Entry => s.playing) ∘ annotate cfg now) = fun s => s.playing := by
    funext s; rfl
  unfold pickActive
  simp only [head?_jsSort, List.filter_map, hst, hpl, firstMin_map, List.length_map, ne_eq,
    List.length_eq_zero, List.map_eq_nil_iff]
  rfl

/-! ## Arbitration -/

/-- C1: with the candidates being every entry except the bridge entry under tamper
suppression, `pickActive` answers "playing" with a fresh playing candidate of largest timestamp
when some fresh candidate plays, and otherwise "paused" with a fresh candidate of largest
timestamp when some candidate is fresh.  The active entry is the candidate with `age` and
`stale` added. -/
theorem pickActive_prefers_playing_then_freshest (cfg : Config) (st : Store) (now : Int) :
    ((∃ s, isCandidate cfg st now s ∧ isFreshAt cfg now s ∧ s.playing = true) →
      ∃ a, pickActive cfg st now =
          { active := some (annotate cfg now a), stale := false, reason := "playing" } ∧
        isCandidate cfg st now a ∧ isFreshAt cfg now a ∧ a.playing = true ∧
        ∀ s, isCandidate cfg st now s → isFreshAt cfg now s → s.playing = true →
          s.ts ≤ a.ts) ∧
    ((¬ ∃ s, isCandidate cfg st now s ∧ isFreshAt cfg now s ∧ s.playing = true) →
      (∃ s, isCandidate cfg st now s ∧ isFreshAt cfg now s) →
      ∃ a, pickActive cfg st now =
          { active := some (annotate cfg now a), stale := false, reason := "paused" } ∧
        isCandidate cfg st now a ∧ isFreshAt cfg now a ∧
        ∀ s, isCandidate cfg st now s → isFreshAt cfg now s → s.ts ≤ a.ts) := by
  constructor
  · rintro ⟨s, hs⟩
    have hmem : s ∈ playingFreshList cfg st now := (mem_playingFreshList cfg st now s).2 hs
    have hne : playingFreshList cfg st now ≠ [] := List.ne_nil_of_mem hmem
    obtain ⟨a, ha⟩ := firstMin_isSome (fun a b : SourceState => b.ts - a.ts) _ hne
    have ham := (mem_playingFreshList cfg st now a).1 (firstMin_mem _ _ a ha)
    refine ⟨a, ?_, ham.1, ham.2.1, ham.2.2, ?_⟩
    · rw [pickActive_eq, if_pos hne, ha]
      rfl
    · intro x hx1 hx2 hx3
      exact firstMin_desc_max (fun s : SourceState => s.ts) _ a ha x
        ((mem_playingFreshList cfg st now x).2 ⟨hx1, hx2, hx3⟩)
  · rintro hno ⟨s, hs⟩
    have hnil : playingFreshList cfg st now = [] := by
      by_contra hne
      obtain ⟨x, hx⟩ := List.exists_mem_of_ne_nil _ hne
      exact hno ⟨x, (mem_playingFreshList cfg st now x).1 hx⟩
    have hmem : s ∈ freshList cfg st now := (mem_freshList cfg st now s).2 hs
    have hne : freshList cfg st now ≠ [] := List.ne_nil_of_mem hmem
    obtain ⟨a, ha⟩ := firstMin_isSome (fun a b : SourceState => b.ts - a.ts) _ hne
    have ham := (mem_freshList cfg st now a).1 (firstMin_mem _ _ a ha)
    refine ⟨a, ?_, ham.1, ham.2, ?_⟩
    · rw [pickActive_eq, if_neg (by simpa using hnil), if_pos hne, ha]
      rfl
    · intro x hx1 hx2
      exact firstMin_desc_max (fun s : SourceState => s.ts) _ a ha x
        ((mem_freshList cfg st now x).2 ⟨hx1, hx2⟩)

/-- Witness of C1: both branches, on a store with two playing sources (at time 3000) and on a
store whose only written source is paused. -/
theorem pickActive_prefers_playing_then_freshest_witness :
    (∃ a, pickActive defaultConfig storeTwoPlaying 3000 =
          { active := some (annotate defaultConfig 3000 a), stale := false,
            reason := "playing" } ∧
        isCandidate defaultConfig storeTwoPlaying 3000 a ∧ isFreshAt defaultConfig 3000 a ∧
        a.playing = true ∧
        ∀ s, isCandidate defaultConfig storeTwoPlaying 3000 s → isFreshAt defaultConfig 3000 s →
          s.playing = true → s.ts ≤ a.ts) ∧
    (∃ a, pickActive defaultConfig storeOnePaused 3000 =
          { active := some (annotate defaultConfig 3000 a), stale := false,
            reason := "paused" } ∧
        isCandidate defaultConfig storeOnePaused 3000 a ∧ isFreshAt defaultConfig 3000 a ∧
        ∀ s, isCandidate defaultConfig storeOnePaused 3000 s → isFreshAt defaultConfig 3000 s →
          s.ts ≤ a.ts) :=
  ⟨(pickActive_prefers_playing_then_freshest defaultConfig storeTwoPlaying 3000).1
      ⟨storeTwoPlaying.spotify, by decide⟩,
    (pickActive_prefers_playing_then_freshest defaultConfig storeOnePaused 3000).2
      (by
        rintro ⟨s, hc, -, hp⟩
        have hv : ∀ x ∈ storeOnePaused.values, x.playing = false := by decide
        rw [hv s hc.1] at hp
        cases hp)
      ⟨storeOnePaused.spotify, by decide⟩⟩

/-! ### Shared lemmas on arbitration -/

theorem mem_values_iff (st : Store) (s : SourceState) :
    s ∈ st.values ↔ ∃ k, s = st.get k := by
  constructor
  · intro h
    simp only [Store.values, List.mem_cons, List.mem_singleton, List.not_mem_nil, or_false] at h
    rcases h with h | h | h | h | h
    · exact ⟨.spotify, h⟩
    · exact ⟨.ytmusic, h⟩
    · exact ⟨.youtube, h⟩
    · exact ⟨.mpris, h⟩
    · exact ⟨.other, h⟩
  · rintro ⟨k, rfl⟩
    cases k <;> simp [Store.values, Store.get]

theorem isTamperFresh_iff (cfg : Config) (st : Store) (now : Int) :
    isTamperFresh cfg st now = true ↔
      ∃ k ∈ cfg.TM_SOURCES, (st.get k).ts ≠ 0 ∧ now - (st.get k).ts ≤ cfg.TM_TTL_MS := by
  simp [isTamperFresh, List.any_eq_true]

/-- A fresh playing candidate that every other fresh playing candidate is strictly older than
is the answer of `pickActive`. -/
theorem pickActive_playing_of_newest (cfg : Config) (st : Store) (now : Int) (s : SourceState)
    (hs : s ∈ playingFreshList cfg st now)
    (hmax : ∀ x ∈ playingFreshList cfg st now, x ≠ s → x.ts < s.ts) :
    pickActive cfg st now =
      { active := some (annotate cfg now s), stale := false, reason := "playing" } := by
  have hne : playingFreshList cfg st now ≠ [] := List.ne_nil_of_mem hs
  obtain ⟨a, ha⟩ := firstMin_isSome (fun a b : SourceState => b.ts - a.ts) _ hne
  have ham := firstMin_mem _ _ a ha
  have hle : s.ts ≤ a.ts := firstMin_desc_max (fun s : SourceState => s.ts) _ a ha s hs
  have has : a = s := by
    by_contra hne2
    have := hmax a ham hne2
    omega
  rw [pickActive_eq, if_pos hne, ha, has]
  rfl

/-- The active entry of `pickActive`, when there is one, is an annotated fresh candidate. -/
theorem pickActive_active_mem (cfg : Config) (st : Store) (now : Int) (a : Entry)
    (h : (pickActive cfg st now).active = some a) :
    ∃ s, a = annotate cfg now s ∧ isCandidate cfg st now s ∧ isFreshAt cfg now s := by
  rw [pickActive_eq] at h
  by_cases h1 : playingFreshList cfg st now ≠ []
  · rw [if_pos h1] at h
    simp only [Option.map_eq_some'] at h
    obtain ⟨s, hs, rfl⟩ := h
    have := (mem_playingFreshList cfg st now s).1 (firstMin_mem _ _ s hs)
    exact ⟨s, rfl, this.1, this.2.1⟩
  · rw [if_neg h1] at h
    by_cases h2 : freshList cfg st now ≠ []
    · rw [if_pos h2] at h
      simp only [Option.map_eq_some'] at h
      obtain ⟨s, hs, rfl⟩ := h
      have := (mem_freshList cfg st now s).1 (firstMin_mem _ _ s hs)
      exact ⟨s, rfl, this.1, this.2⟩
    · rw [if_neg h2] at h
      cases h

/-- C2 fails as stated: with ytmusic paused (written at 1000) and the bridge entry playing
(written at 2000), exactly these two sources are fresh at 3000 and exactly the bridge one
plays, yet `pickActive` answers the paused ytmusic entry: the bridge entry is suppressed. -/
theorem two_fresh_one_playing_counterexample :
    (∀ k, isFreshAt defaultConfig 3000 (storeBridgePlaying.get k) ↔
      k = SourceKey.mpris ∨ k = SourceKey.ytmusic) ∧
    (storeBridgePlaying.get SourceKey.mpris).playing = true ∧
    (storeBridgePlaying.get SourceKey.ytmusic).playing = false ∧
    pickActive defaultConfig storeBridgePlaying 3000 =
      { active := some (annotate defaultConfig 3000 (storeBridgePlaying.get SourceKey.ytmusic))
        stale := false
        reason := "paused" } ∧
    pickActive defaultConfig storeBridgePlaying 3000 ≠
      { active := some (annotate defaultConfig 3000 (storeBridgePlaying.get SourceKey.mpris))
        stale := false
        reason := "playing" } := by
  refine ⟨?_, by decide, by decide, by decide, by decide⟩
  intro k
  cases k <;> decide

/-- C2, amended: when exactly two sources `p` and `q` are fresh, `p` plays and `q` does not,
and `p` is a candidate (it is not the bridge entry under tamper suppression), `pickActive`
answers `p` with reason "playing", whatever the two timestamps and keys are. -/
theorem pickActive_two_fresh_one_playing (cfg : Config) (st : Store) (now : Int)
    (p q : SourceKey) (hpq : p ≠ q)
    (hfresh : ∀ k, isFreshAt cfg now (st.get k) ↔ k = p ∨ k = q)
    (hp : (st.get p).playing = true) (hq : (st.get q).playing = false)
    (hcand : isCandidate cfg st now (st.get p)) :
    pickActive cfg st now =
      { active := some (annotate cfg now (st.get p)), stale := false, reason := "playing" } := by
  have _ := hpq
  apply pickActive_playing_of_newest
  · exact (mem_playingFreshList cfg st now _).2 ⟨hcand, (hfresh p).2 (Or.inl rfl), hp⟩
  · intro x hx hne
    obtain ⟨hc, hf, hpl⟩ := (mem_playingFreshList cfg st now x).1 hx
    obtain ⟨k, rfl⟩ := (mem_values_iff st x).1 hc.1
    rcases (hfresh k).1 hf with rfl | rfl
    · exact absurd rfl hne
    · rw [hq] at hpl
      cases hpl

/-- Witness of C2 amended: spotify plays (written at 1000), ytmusic is paused and newer
(written at 2000); at 3000 the answer is spotify. -/
theorem pickActive_two_fresh_one_playing_witness :
    pickActive defaultConfig storeOlderPlaying 3000 =
      { active := some (annotate defaultConfig 3000 (storeOlderPlaying.get SourceKey.spotify))
        stale := false
        reason := "playing" } :=
  pickActive_two_fresh_one_playing defaultConfig storeOlderPlaying 3000
    SourceKey.spotify SourceKey.ytmusic (by decide)
    (by intro k; cases k <;> decide) (by decide) (by decide) (by decide)

/-- C3: when some trusted source was updated within `TM_TTL_MS` of `now`, the active entry of
`pickActive` is never the bridge entry (its source is not `mpris`, and it is not the entry
stored under the key `mpris` when that entry records its key), the answer of the now-playing
query has no active bridge entry, and its per-source map holds `null` under `mpris`. -/
theorem tamper_suppression_hides_bridge (cfg : Config) (st : Store) (req : Req)
    (now now2 : Int)
    (h : ∃ k ∈ cfg.TM_SOURCES, (st.get k).ts ≠ 0 ∧ now - (st.get k).ts ≤ cfg.TM_TTL_MS) :
    (∀ a, (pickActive cfg st now).active = some a →
      a.source ≠ SourceKey.mpris ∧
      (st.mpris.source = SourceKey.mpris → a.toSourceState ≠ st.mpris)) ∧
    (∀ c, (getNowPlaying cfg st req now now2).active = some c →
      c.state.source ≠ SourceKey.mpris) ∧
    (∀ kv ∈ (getNowPlaying cfg st req now now2).states,
      kv.1 = SourceKey.mpris → kv.2 = none) ∧
    (∃ kv ∈ (getNowPlaying cfg st req now now2).states, kv.1 = SourceKey.mpris) := by
  have ht : isTamperFresh cfg st now = true := (isTamperFresh_iff cfg st now).2 h
  have hact : ∀ a, (pickActive cfg st now).active = some a → a.source ≠ SourceKey.mpris := by
    intro a ha
    obtain ⟨s, rfl, hc, -⟩ := pickActive_active_mem cfg st now a ha
    intro hsrc
    exact hc.2 ⟨ht, hsrc⟩
  refine ⟨?_, ?_, ?_, ?_⟩
  · intro a ha
    refine ⟨hact a ha, ?_⟩
    intro hm heq
    apply hact a ha
    have : a.toSourceState.source = SourceKey.mpris := by rw [heq]; exact hm
    exact this
  · intro c hc
    simp only [getNowPlaying, mapStateForClient] at hc
    cases hpa : (pickActive cfg st now).active with
    | none => rw [hpa] at hc; cases hc
    | some a =>
      rw [hpa] at hc
      simp only [Option.some.injEq] at hc
      subst hc
      exact hact a hpa
  · intro kv hkv hk
    simp only [getNowPlaying, List.mem_map] at hkv
    obtain ⟨x, -, rfl⟩ := hkv
    simp only at hk
    simp [ht, hk]
  · refine ⟨(SourceKey.mpris, none), ?_, rfl⟩
    simp only [getNowPlaying, List.mem_map]
    refine ⟨(SourceKey.mpris, st.mpris), ?_, ?_⟩
    · simp [Store.entries, allKeys, Store.get]
    · simp [ht]

/-- Witness of C3: youtube written at 1000, the bridge entry playing and written at 2500; at
3000 the bridge entry is fresh and playing, and it is hidden. -/
theorem tamper_suppression_hides_bridge_witness :
    isFreshAt defaultConfig 3000 storeTrustedAndBridge.mpris ∧
    storeTrustedAndBridge.mpris.playing = true ∧
    (∀ a, (pickActive defaultConfig storeTrustedAndBridge 3000).active = some a →
      a.source ≠ SourceKey.mpris ∧
      (storeTrustedAndBridge.mpris.source = SourceKey.mpris →
        a.toSourceState ≠ storeTrustedAndBridge.mpris)) ∧
    (∀ c, (getNowPlaying defaultConfig storeTrustedAndBridge plainReq 3000 3001).active = some c →
      c.state.source ≠ SourceKey.mpris) ∧
    (∀ kv ∈ (getNowPlaying defaultConfig storeTrustedAndBridge plainReq 3000 3001).states,
      kv.1 = SourceKey.mpris → kv.2 = none) ∧
    (∃ kv ∈ (getNowPlaying defaultConfig storeTrustedAndBridge plainReq 3000 3001).states,
      kv.1 = SourceKey.mpris) :=
  ⟨by decide, by decide,
    tamper_suppression_hides_bridge defaultConfig storeTrustedAndBridge plainReq 3000 3001
      ⟨SourceKey.youtube, by decide, by decide, by decide⟩⟩

/-- C5: the active entry of `pickActive` never has an age `now - ts` above `STALE_MS`, and when
every entry has an age above `STALE_MS` the answer is no active entry, stale, reason "none". -/
theorem pickActive_excludes_stale (cfg : Config) (st : Store) (now : Int) :
    (∀ a, (pickActive cfg st now).active = some a → ¬ (now - a.ts > cfg.STALE_MS)) ∧
    ((∀ k, now - (st.get k).ts > cfg.STALE_MS) →
      pickActive cfg st now = { active := none, stale := true, reason := "none" }) := by
  constructor
  · intro a ha
    obtain ⟨s, rfl, -, hf⟩ := pickActive_active_mem cfg st now a ha
    have h2 : now - s.ts ≤ cfg.STALE_MS := hf.2
    have h3 : (annotate cfg now s).ts = s.ts := rfl
    rw [h3]
    omega
  · intro hall
    have hnil : freshList cfg st now = [] := by
      by_contra hne
      obtain ⟨x, hx⟩ := List.exists_mem_of_ne_nil _ hne
      obtain ⟨hc, hf⟩ := (mem_freshList cfg st now x).1 hx
      obtain ⟨k, rfl⟩ := (mem_values_iff st x).1 hc.1
      have h1 := hall k
      have h2 : now - (st.get k).ts ≤ cfg.STALE_MS := hf.2
      omega
    have hnil2 : playingFreshList cfg st now = [] := by
      simp [playingFreshList, hnil]
    rw [pickActive_eq, hnil, hnil2]
    simp

/-- Witness of C5: in the blank store at time 20000 every entry has age 20000. -/
theorem pickActive_excludes_stale_witness :
    pickActive defaultConfig blankStore 20000 =
      { active := none, stale := true, reason := "none" } :=
  (pickActive_excludes_stale defaultConfig blankStore 20000).2
    (by intro k; cases k <;> decide)

/-- C6: `pickActive` is a total function whose answer has one of three shapes: an active entry
with reason "playing" and not stale, an active entry with reason "paused" and not stale, or no
active entry with reason "none" and stale; the three shapes exclude one another, and the active
entry carries `stale = false` itself. -/
theorem pickActive_total (cfg : Config) (st : Store) (now : Int) :
    ((∃ a, pickActive cfg st now = { active := some a, stale := false, reason := "playing" } ∧
        a.stale = false) ∨
      (∃ a, pickActive cfg st now = { active := some a, stale := false, reason := "paused" } ∧
        a.stale = false) ∨
      pickActive cfg st now = { active := none, stale := true, reason := "none" }) ∧
    ((pickActive cfg st now).reason = "playing" ∨ (pickActive cfg st now).reason = "paused" ∨
      (pickActive cfg st now).reason = "none") ∧
    ((pickActive cfg st now).reason = "playing" → (pickActive cfg st now).reason ≠ "paused" ∧
      (pickActive cfg st now).reason ≠ "none") ∧
    ((pickActive cfg st now).reason = "paused" → (pickActive cfg st now).reason ≠ "none") := by
  have hstale : ∀ s, isFreshAt cfg now s → (annotate cfg now s).stale = false :=
    fun s hs => (annotate_stale cfg now s).2 hs
  have hshape :
      (∃ a, pickActive cfg st now = { active := some a, stale := false, reason := "playing" } ∧
        a.stale = false) ∨
      (∃ a, pickActive cfg st now = { active := some a, stale := false, reason := "paused" } ∧
        a.stale = false) ∨
      pickActive cfg st now = { active := none, stale := true, reason := "none" } := by
    rw [pickActive_eq]
    by_cases h1 : playingFreshList cfg st now ≠ []
    · left
      obtain ⟨a, ha⟩ := firstMin_isSome (fun a b : SourceState => b.ts - a.ts) _ h1
      have hm := (mem_playingFreshList cfg st now a).1 (firstMin_mem _ _ a ha)
      exact ⟨annotate cfg now a, by rw [if_pos h1, ha]; rfl, hstale a hm.2.1⟩
    · right
      by_cases h2 : freshList cfg st now ≠ []
      · left
        obtain ⟨a, ha⟩ := firstMin_isSome (fun a b : SourceState => b.ts - a.ts) _ h2
        have hm := (mem_freshList cfg st now a).1 (firstMin_mem _ _ a ha)
        exact ⟨annotate cfg now a, by rw [if_neg h1, if_pos h2, ha]; rfl, hstale a hm.2⟩
      · right
        rw [if_neg h1, if_neg h2]
  refine ⟨hshape, ?_, ?_, ?_⟩
  · rcases hshape with ⟨a, h, -⟩ | ⟨a, h, -⟩ | h <;> rw [h] <;> simp
  · intro h
    rw [h]
    decide
  · intro h
    rw [h]
    decide

/-- Witness of C6: the three shapes occur, on a store with two playing sources, on a store
whose only written source is paused, and on the blank store. -/
theorem pickActive_total_witness :
    (pickActive defaultConfig storeTwoPlaying 3000).reason ≠ "paused" ∧
    (pickActive defaultConfig storeTwoPlaying 3000).reason ≠ "none" ∧
    (pickActive defaultConfig storeOnePaused 3000).reason ≠ "none" ∧
    ((pickActive defaultConfig blankStore 3000).reason = "playing" ∨
      (pickActive defaultConfig blankStore 3000).reason = "paused" ∨
      (pickActive defaultConfig blankStore 3000).reason = "none") :=
  ⟨((pickActive_total defaultConfig storeTwoPlaying 3000).2.2.1 (by decide)).1,
    ((pickActive_total defaultConfig storeTwoPlaying 3000).2.2.1 (by decide)).2,
    (pickActive_total defaultConfig storeOnePaused 3000).2.2.2 (by decide),
    (pickActive_total defaultConfig blankStore 3000).2.1⟩

/-! ### End to end -/

theorem normSource_spotify : normSource (.str "spotify") = SourceKey.spotify := by decide

theorem normSource_ytmusic : normSource (.str "ytmusic") = SourceKey.ytmusic := by decide

/-- C7: from the blank store, the spotify report written at `t1` and the ytmusic report written
at a later `t2` make `pickActive` answer the ytmusic entry with reason "playing" at every `now`
from `t2` to `t2 + STALE_MS`.  Clock readings are positive. -/
theorem end_to_end_newer_playing_wins (cfg : Config) (t1 t2 now : Int)
    (h0 : 0 < t1) (h12 : t1 < t2) (hn : t2 ≤ now) (hn2 : now ≤ t2 + cfg.STALE_MS) :
    pickActive cfg (postNowPlaying (postNowPlaying blankStore spotifyReport t1) ytmusicReport t2)
        now =
      { active := some (annotate cfg now
          (postNowPlaying (postNowPlaying blankStore spotifyReport t1) ytmusicReport
            t2).ytmusic)
        stale := false
        reason := "playing" } ∧
    (postNowPlaying (postNowPlaying blankStore spotifyReport t1) ytmusicReport t2).ytmusic.source
      = SourceKey.ytmusic ∧
    (postNowPlaying (postNowPlaying blankStore spotifyReport t1) ytmusicReport t2).ytmusic.playing
      = true ∧
    (postNowPlaying (postNowPlaying blankStore spotifyReport t1) ytmusicReport t2).ytmusic.ts
      = t2 := by
  have _ := hn
  have hst : postNowPlaying (postNowPlaying blankStore spotifyReport t1) ytmusicReport t2 =
      { blankStore with
        spotify := sanitizeIncoming spotifyReport (blankState .spotify) t1
        ytmusic := sanitizeIncoming ytmusicReport (blankState .ytmusic) t2 } := by
    simp only [postNowPlaying, spotifyReport, ytmusicReport, normSource_spotify,
      normSource_ytmusic, Store.set, Store.get, blankStore]
  rw [hst]
  refine ⟨?_, rfl, rfl, rfl⟩
  apply pickActive_playing_of_newest
  · refine (mem_playingFreshList _ _ _ _).2 ⟨⟨?_, ?_⟩, ⟨?_, ?_⟩, rfl⟩
    · simp [Store.values]
    · rintro ⟨-, hsrc⟩
      cases hsrc
    · show t2 ≠ 0
      omega
    · show now - t2 ≤ cfg.STALE_MS
      omega
  · intro x hx hne
    obtain ⟨hc, hf, hpl⟩ := (mem_playingFreshList _ _ _ x).1 hx
    obtain ⟨k, rfl⟩ := (mem_values_iff _ x).1 hc.1
    cases k
    · show t1 < t2
      exact h12
    · exact absurd rfl hne
    · exact absurd rfl hf.1
    · exact absurd rfl hf.1
    · exact absurd rfl hf.1

/-- Witness of C7: the two reports written at 1000 and 1001, queried at 5000. -/
theorem end_to_end_newer_playing_wins_witness :
    pickActive defaultConfig
        (postNowPlaying (postNowPlaying blankStore spotifyReport 1000) ytmusicReport 1001) 5000 =
      { active := some (annotate defaultConfig 5000
          (postNowPlaying (postNowPlaying blankStore spotifyReport 1000) ytmusicReport
            1001).ytmusic)
        stale := false
        reason := "playing" } :=
  (end_to_end_newer_playing_wins defaultConfig 1000 1001 5000 (by decide) (by decide)
    (by decide) (by decide)).1

/-! ## The position invariant -/

theorem orZero_eq (n : Int) : orZero n = n := by
  unfold orZero
  split
  · next h => exact h.symm
  · rfl

theorem floorOrPrev_nonneg (v : JsVal) (prev : Int) (h : 0 ≤ prev) :
    0 ≤ floorOrPrev v prev := by
  unfold floorOrPrev
  split
  · exact le_max_left _ _
  · rw [orZero_eq]
    exact h

theorem sanitizeIncoming_positionInRange (b : Body) (prev : SourceState) (now : Int)
    (h : 0 ≤ prev.positionMs) : positionInRange (sanitizeIncoming b prev now) := by
  have hp := floorOrPrev_nonneg b.positionMs prev.positionMs h
  unfold positionInRange sanitizeIncoming
  simp only
  by_cases hd : floorOrPrev b.durationMs prev.durationMs > 0
  · simp only [hd, if_true, clamp]
    constructor
    · exact le_min (le_of_lt hd) (le_max_left _ _)
    · intro _
      exact min_le_left _ _
  · simp only [hd, if_false]
    exact ⟨hp, fun h2 => h2.elim⟩

theorem get_set (st : Store) (k k2 : SourceKey) (v : SourceState) :
    (st.set k v).get k2 = if k2 = k then v else st.get k2 := by
  cases k <;> cases k2 <;> simp [Store.set, Store.get]

theorem postNowPlaying_positionInRange (st : Store) (b : Body) (now : Int)
    (h : ∀ k, positionInRange (st.get k)) (k : SourceKey) :
    positionInRange ((postNowPlaying st b now).get k) := by
  unfold postNowPlaying
  simp only [get_set]
  split
  · exact sanitizeIncoming_positionInRange _ _ _ (h _).1
  · exact h k

theorem syncMprisToState_positionInRange (cfg : Config) (st : Store)
    (players : List PlayerSnapshot) (nowChoose now : Int)
    (h : ∀ k, positionInRange (st.get k)) (k : SourceKey) :
    positionInRange ((syncMprisToState cfg st players nowChoose now).get k) := by
  unfold syncMprisToState
  cases chooseMprisPlayer cfg players none nowChoose with
  | none => exact h k
  | some chosen =>
    cases k
    · exact h .spotify
    · exact h .ytmusic
    · exact h .youtube
    · simp only [Store.get, positionInRange, Int.floor_intCast, orZero_eq, clamp]
      by_cases hd : chosen.durationMs > 0
      · simp only [hd, if_true]
        refine ⟨le_min (le_of_lt hd) (le_max_left _ _), fun _ => ?_⟩
        rw [max_eq_right (le_of_lt hd)]
        exact min_le_left _ _
      · simp only [hd, if_false]
        refine ⟨le_max_left _ _, fun h2 => ?_⟩
        rw [max_eq_left (not_lt.1 hd)] at h2
        exact absurd h2 (lt_irrefl _)
    · exact h .other

theorem run_append_one (cfg : Config) (st : Store) (es : List Event) (e : Event) :
    run cfg st (es ++ [e]) = step cfg (run cfg st es) e := by
  simp [run, List.foldl_append]

/-- C4: from the blank store, after any finite sequence of report writes and projection ticks
(with integer-valued snapshots), every entry has `positionMs >= 0` and, when its `durationMs`
is positive, `positionMs <= durationMs`. -/
theorem position_within_duration (cfg : Config) (es : List Event) (k : SourceKey) :
    0 ≤ ((run cfg blankStore es).get k).positionMs ∧
    (0 < ((run cfg blankStore es).get k).durationMs →
      ((run cfg blankStore es).get k).positionMs ≤ ((run cfg blankStore es).get k).durationMs) := by
  have hall : ∀ k, positionInRange ((run cfg blankStore es).get k) := by
    induction es using List.reverseRecOn with
    | nil =>
      intro k
      cases k <;> exact ⟨le_refl _, fun h => absurd h (lt_irrefl _)⟩
    | append_singleton es e ih =>
      intro k
      rw [run_append_one]
      cases e with
      | report b now => exact postNowPlaying_positionInRange _ b now ih k
      | tick players nowChoose now =>
        exact syncMprisToState_positionInRange cfg _ players nowChoose now ih k
  exact hall k

/-- Witness of C4: a report placing the position beyond the duration, and a tick interpolating
a playing snapshot past its end, both leave the position at the duration. -/
theorem position_within_duration_witness :
    ((run defaultConfig blankStore [Event.report overshootReport 1000]).get
        SourceKey.spotify).positionMs ≤
      ((run defaultConfig blankStore [Event.report overshootReport 1000]).get
        SourceKey.spotify).durationMs ∧
    ((run defaultConfig blankStore [Event.tick [vlcSnapshot] 3000 3500]).get
        SourceKey.mpris).positionMs ≤
      ((run defaultConfig blankStore [Event.tick [vlcSnapshot] 3000 3500]).get
        SourceKey.mpris).durationMs :=
  ⟨(position_within_duration defaultConfig [Event.report overshootReport 1000]
      SourceKey.spotify).2 (by decide),
    (position_within_duration defaultConfig [Event.tick [vlcSnapshot] 3000 3500]
      SourceKey.mpris).2 (by decide)⟩

/-! ## The command register -/

theorem postCommand_accepted (cfg : Config) (st : Store) (cs : CommandState) (b : CmdBody)
    (clk : CommandClock) (bus : BusReply) (h : submittedAction b ≠ "") :
    (postCommand cfg st cs b clk bus).1.cmd =
        { id := cs.cmd.id + 1, action := some (submittedAction b), value := submittedValue b
          ts := clk.stamp } ∧
      (postCommand cfg st cs b clk bus).2.cmdId = some (cs.cmd.id + 1) := by
  simp [postCommand, h, CommandResponse.cmdId]

theorem runCommands_spec (cfg : Config) (subs : List Submission) :
    ∀ cs : CommandState, (∀ s ∈ subs, submittedAction s.body ≠ "") →
      (runCommands cfg cs subs).2.map CommandResponse.cmdId =
          (List.range subs.length).map (fun i => some (cs.cmd.id + i + 1)) ∧
        (∀ last, subs.getLast? = some last →
          (runCommands cfg cs subs).1.cmd =
            { id := cs.cmd.id + subs.length, action := some (submittedAction last.body)
              value := submittedValue last.body, ts := last.clk.stamp }) := by
  induction subs with
  | nil =>
    intro cs _
    exact ⟨rfl, fun last h => by cases h⟩
  | cons s rest ih =>
    intro cs hacc
    have hs : submittedAction s.body ≠ "" := hacc s (List.mem_cons_self _ _)
    have hrest : ∀ x ∈ rest, submittedAction x.body ≠ "" :=
      fun x hx => hacc x (List.mem_cons_of_mem _ hx)
    obtain ⟨hcmd, hid⟩ := postCommand_accepted cfg s.st cs s.body s.clk s.bus hs
    have hnext : (postCommand cfg s.st cs s.body s.clk s.bus).1.cmd.id = cs.cmd.id + 1 := by
      rw [hcmd]
    obtain ⟨ih1, ih2⟩ := ih (postCommand cfg s.st cs s.body s.clk s.bus).1 hrest
    have hrun : runCommands cfg cs (s :: rest) =
        ((runCommands cfg (postCommand cfg s.st cs s.body s.clk s.bus).1 rest).1,
          (postCommand cfg s.st cs s.body s.clk s.bus).2 ::
            (runCommands cfg (postCommand cfg s.st cs s.body s.clk s.bus).1 rest).2) := rfl
    rw [hrun]
    constructor
    · simp only [List.map_cons, hid, ih1, hnext, List.length_cons]
      rw [List.range_succ_eq_map, List.map_cons, List.map_map]
      simp only [Nat.add_zero, List.cons.injEq, true_and]
      apply List.map_congr_left
      intro i _
      simp only [Function.comp, Option.some.injEq]
      omega
    · intro last hlast
      cases rest with
      | nil =>
        simp only [List.getLast?_singleton, Option.some.injEq] at hlast
        subst hlast
        simp only [runCommands, hcmd, List.length_singleton]
      | cons r rest2 =>
        rw [List.getLast?_cons_cons] at hlast
        have := ih2 last hlast
        simp only [this, hnext]
        simp only [List.length_cons, Cmd.mk.injEq, and_true]
        omega

/-- C8: from the initial register, after `n >= 1` accepted submissions the answers carried the
ids `1, ..., n`, the stored record is the one of the last submission and has id `n`, and a
poll with `since = k` answers that record when `k < n` and nothing (204) when `k >= n`. -/
theorem command_register_ids_and_poll (cfg : Config) (br : Bridge) (subs : List Submission)
    (last : Submission) (hacc : ∀ s ∈ subs, submittedAction s.body ≠ "")
    (hlast : subs.getLast? = some last) :
    (runCommands cfg { cmd := initialCmd, bridge := br } subs).2.map CommandResponse.cmdId =
        (List.range subs.length).map (fun i => some (i + 1)) ∧
      (runCommands cfg { cmd := initialCmd, bridge := br } subs).1.cmd =
        { id := subs.length, action := some (submittedAction last.body)
          value := submittedValue last.body, ts := last.clk.stamp } ∧
      ∀ (since : JsVal) (k : Nat), sinceNumber since = JsNum.fin (k : ℚ) →
        getCommand (runCommands cfg { cmd := initialCmd, bridge := br } subs).1.cmd since =
          if k < subs.length then
            some (runCommands cfg { cmd := initialCmd, bridge := br } subs).1.cmd
          else none := by
  obtain ⟨h1, h2⟩ := runCommands_spec cfg subs { cmd := initialCmd, bridge := br } hacc
  have hz : initialCmd.id = 0 := rfl
  have h3 := h2 last hlast
  simp only [hz, Nat.zero_add] at h1 h3
  refine ⟨h1, h3, ?_⟩
  intro since k hk
  have hid : (runCommands cfg { cmd := initialCmd, bridge := br } subs).1.cmd.id =
      subs.length := by rw [h3]
  unfold getCommand
  rw [hk, hid]
  simp only [idLeNum, Nat.cast_le, decide_eq_true_eq]
  by_cases hlt : k < subs.length
  · rw [if_neg (by omega), if_pos hlt]
  · rw [if_pos (by omega), if_neg hlt]

theorem sinceNumber_two : sinceNumber (.str "2") = JsNum.fin ((2 : Nat) : ℚ) := by
  have h : jsTrimChars "2".data = ['2'] := by decide
  have h2 : readDigits 10 ['2'] = ([2], []) := by decide
  simp [sinceNumber, JsVal.truthy, JsVal.toNumber, stringToNumber, h, readUnsignedDecimal, h2,
    readExponent, digitsValue, JsNum.ofRat]
  norm_num

theorem sinceNumber_three : sinceNumber (.str "3") = JsNum.fin ((3 : Nat) : ℚ) := by
  have h : jsTrimChars "3".data = ['3'] := by decide
  have h2 : readDigits 10 ['3'] = ([3], []) := by decide
  simp [sinceNumber, JsVal.truthy, JsVal.toNumber, stringToNumber, h, readUnsignedDecimal, h2,
    readExponent, digitsValue, JsNum.ofRat]
  norm_num

/-- Witness of C8: three submissions get the ids 1, 2, 3; the register then holds record 3, a
poll with `since=2` answers it and a poll with `since=3` answers nothing. -/
theorem command_register_ids_and_poll_witness :
    (runCommands defaultConfig { cmd := initialCmd, bridge := oneBridge }
        threeSubmissions).2.map CommandResponse.cmdId = [some 1, some 2, some 3] ∧
      (runCommands defaultConfig { cmd := initialCmd, bridge := oneBridge }
        threeSubmissions).1.cmd =
        { id := 3, action := some "seek", value := .num (.fin 5000) "5000", ts := 30 } ∧
      getCommand (runCommands defaultConfig { cmd := initialCmd, bridge := oneBridge }
        threeSubmissions).1.cmd (.str "2") =
        some { id := 3, action := some "seek", value := .num (.fin 5000) "5000", ts := 30 } ∧
      getCommand (runCommands defaultConfig { cmd := initialCmd, bridge := oneBridge }
        threeSubmissions).1.cmd (.str "3") = none := by
  have hacc : ∀ s ∈ threeSubmissions, submittedAction s.body ≠ "" := by decide
  obtain ⟨h1, h2, h3⟩ := command_register_ids_and_poll defaultConfig oneBridge threeSubmissions
    { st := blankStore, body := { action := .str " seek ", value := .num (.fin 5000) "5000" }
      clk := { stamp := 30, check := 30, choose := 30, base := 30, touch := 30 }
      bus := { ifacesOk := true, canRaiseIsFalse := false, callOk := true } }
    hacc rfl
  have hrec : (runCommands defaultConfig { cmd := initialCmd, bridge := oneBridge }
      threeSubmissions).1.cmd =
      { id := 3, action := some "seek", value := .num (.fin 5000) "5000", ts := 30 } := by
    rw [h2]
    decide
  refine ⟨h1, hrec, ?_, ?_⟩
  · rw [h3 (.str "2") 2 sinceNumber_two, hrec]
    rfl
  · rw [h3 (.str "3") 3 sinceNumber_three]
    rfl

/-- C9: a submission with a non-empty action made while some trusted source was updated within
`TM_TTL_MS` is recorded (the id grows by one, the record holds the trimmed action, the value
and the time), is answered with `executed = false`, and leaves the bridge, its player
snapshots included, unchanged. -/
theorem suppressed_command_recorded_not_executed (cfg : Config) (st : Store)
    (cs : CommandState) (b : CmdBody) (clk : CommandClock) (bus : BusReply)
    (hact : submittedAction b ≠ "")
    (h : ∃ k ∈ cfg.TM_SOURCES,
      (st.get k).ts ≠ 0 ∧ clk.check - (st.get k).ts ≤ cfg.TM_TTL_MS) :
    postCommand cfg st cs b clk bus =
      ({ cmd := { id := cs.cmd.id + 1, action := some (submittedAction b)
                  value := submittedValue b, ts := clk.stamp }
         bridge := cs.bridge },
       CommandResponse.ok
         { id := cs.cmd.id + 1, action := some (submittedAction b)
           value := submittedValue b, ts := clk.stamp } false) := by
  have ht : isTamperFresh cfg st clk.check = true := (isTamperFresh_iff cfg st clk.check).2 h
  simp only [postCommand, hact, if_false, ht, if_true]

/-- Witness of C9: a seek submitted at 3000 while youtube was written at 1000 is recorded with
id 1, not executed, and the bridge keeps its snapshot; the same submission over the blank store
is executed and moves the snapshot. -/
theorem suppressed_command_recorded_not_executed_witness :
    postCommand defaultConfig storeTrustedAndBridge { cmd := initialCmd, bridge := oneBridge }
        seekBody clockAt3000 goodBus =
      ({ cmd := { id := 1, action := some "seek", value := .num (.fin 5000) "5000", ts := 3000 }
         bridge := oneBridge },
       CommandResponse.ok
         { id := 1, action := some "seek", value := .num (.fin 5000) "5000", ts := 3000 }
         false) ∧
    (postCommand defaultConfig blankStore { cmd := initialCmd, bridge := oneBridge }
        seekBody clockAt3000 goodBus).1.bridge ≠ oneBridge := by
  refine ⟨?_, by decide⟩
  have h := suppressed_command_recorded_not_executed defaultConfig storeTrustedAndBridge
    { cmd := initialCmd, bridge := oneBridge } seekBody clockAt3000 goodBus (by decide)
    ⟨SourceKey.youtube, by decide, by decide, by decide⟩
  rw [h]
  decide

/-! ## Scalar fields of a report -/

theorem cleanStr_of_value (v : JsVal) (h1 : v ≠ .undefined) (h2 : v ≠ .null) :
    cleanStr v = if jsTrim v.toStr = "" then none else some (jsTrim v.toStr) := by
  cases v with
  | undefined => exact absurd rfl h1
  | null => exact absurd rfl h2
  | bool b => rfl
  | num n t => rfl
  | str s => rfl
  | obj t => rfl

theorem sanitizeIncoming_strField (f : StrField) (b : Body) (prev : SourceState) (now : Int) :
    f.ofState (sanitizeIncoming b prev now) =
      (cleanStr (f.ofBody b)).orElse (fun _ => f.ofState prev) := by
  cases f <;> rfl

/-- C10 fails as stated: a report with the non-empty year "abc" and the padded title " a ",
applied to an entry with year 1999, leaves the year at 1999 and stores the title "a". -/
theorem scalar_fields_counterexample :
    paddedReport.year = .str "abc" ∧
    namedState.year = some 1999 ∧
    (sanitizeIncoming paddedReport namedState 1000).year = some 1999 ∧
    paddedReport.title = .str " a " ∧
    (sanitizeIncoming paddedReport namedState 1000).title = some "a" ∧
    (sanitizeIncoming paddedReport namedState 1000).title ≠ some " a " := by
  decide

/-- C10, amended: for title, artist, album, url and cover, a provided value whose text is not
empty after trimming replaces the field by the trimmed text, and an absent, null, empty or
white-space-only value keeps the previous one; for year, a finite number or a non-empty string
reading as a finite number replaces the field by that number, and an absent year or a string
that does not read as a finite number keeps the previous one. -/
theorem sanitizeIncoming_scalar_fields (b : Body) (prev : SourceState) (now : Int) :
    (∀ f : StrField, f.ofBody b ≠ .undefined → f.ofBody b ≠ .null →
        jsTrim (f.ofBody b).toStr ≠ "" →
        f.ofState (sanitizeIncoming b prev now) = some (jsTrim (f.ofBody b).toStr)) ∧
    (∀ f : StrField,
        (f.ofBody b = .undefined ∨ f.ofBody b = .null ∨
          ∃ s, f.ofBody b = .str s ∧ jsTrim s = "") →
        f.ofState (sanitizeIncoming b prev now) = f.ofState prev) ∧
    (∀ q t, b.year = .num (.fin q) t → (sanitizeIncoming b prev now).year = some q) ∧
    (∀ s q, b.year = .str s → jsTrim s ≠ "" → stringToNumber s = .fin q →
        (sanitizeIncoming b prev now).year = some q) ∧
    (b.year = .undefined → (sanitizeIncoming b prev now).year = prev.year) ∧
    (∀ s, b.year = .str s → (∀ q, stringToNumber s ≠ .fin q) →
        (sanitizeIncoming b prev now).year = prev.year) := by
  refine ⟨?_, ?_, ?_, ?_, ?_, ?_⟩
  · intro f h1 h2 h3
    rw [sanitizeIncoming_strField, cleanStr_of_value _ h1 h2, if_neg h3]
    rfl
  · intro f h
    rw [sanitizeIncoming_strField]
    rcases h with h | h | ⟨s, h, hs⟩
    · rw [h]; rfl
    · rw [h]; rfl
    · rw [h]
      have : cleanStr (.str s) = none := by
        simp only [cleanStr, JsVal.toStr, hs, if_true]
      rw [this]
      rfl
  · intro q t h
    simp only [sanitizeIncoming, h, JsVal.toNumber]
  · intro s q h _ hq
    simp only [sanitizeIncoming, h, JsVal.toNumber, hq]
  · intro h
    simp only [sanitizeIncoming, h, JsVal.toNumber]
  · intro s h hq
    have hy : (sanitizeIncoming b prev now).year =
        match stringToNumber s with
        | .fin q => some q
        | _ => prev.year := by
      simp only [sanitizeIncoming, h, JsVal.toNumber]
    rw [hy]
    cases hn : stringToNumber s with
    | fin q => exact absurd hn (hq q)
    | nan => rfl
    | posInf => rfl
    | negInf => rfl

/-- Witness of C10 amended: over an entry titled "Old" of year 1999, a report with the artist
"Band", a blank title and the year 2020 sets the artist and the year and keeps the title; a
report with the padded title " a " and the year "abc" stores "a" and keeps the year. -/
theorem sanitizeIncoming_scalar_fields_witness :
    (sanitizeIncoming yearReport namedState 1000).artist = some "Band" ∧
    (sanitizeIncoming yearReport namedState 1000).title = some "Old" ∧
    (sanitizeIncoming yearReport namedState 1000).year = some 2020 ∧
    (sanitizeIncoming paddedReport namedState 1000).title = some "a" ∧
    (sanitizeIncoming paddedReport namedState 1000).year = some 1999 ∧
    (sanitizeIncoming { } namedState 1000).year = some 1999 :=
  have h1 := sanitizeIncoming_scalar_fields yearReport namedState 1000
  have h2 := sanitizeIncoming_scalar_fields paddedReport namedState 1000
  have h3 := sanitizeIncoming_scalar_fields { } namedState 1000
  have hnan : stringToNumber "abc" = JsNum.nan := by decide
  ⟨(h1.1 StrField.artist (by decide) (by decide) (by decide)).trans (by decide),
    h1.2.1 StrField.title (Or.inr (Or.inr ⟨"  ", rfl, by decide⟩)),
    h1.2.2.1 2020 "2020" rfl,
    (h2.1 StrField.title (by decide) (by decide) (by decide)).trans (by decide),
    h2.2.2.2.2.2 "abc" rfl (fun q hq => by rw [hnan] at hq; cases hq),
    h3.2.2.2.2.1 rfl⟩

/-! ## Every write keeps the keys of the entries -/

theorem blankStore_WF : blankStore.WF := by
  intro k
  cases k <;> rfl

theorem postNowPlaying_WF (st : Store) (b : Body) (now : Int) (h : st.WF) :
    (postNowPlaying st b now).WF := by
  intro k
  unfold postNowPlaying
  rw [get_set]
  split
  · next hk =>
    subst hk
    exact h _
  · exact h k

theorem syncMprisToState_WF (cfg : Config) (st : Store) (players : List PlayerSnapshot)
    (nowChoose now : Int) (h : st.WF) : (syncMprisToState cfg st players nowChoose now).WF := by
  intro k
  unfold syncMprisToState
  cases chooseMprisPlayer cfg players none nowChoose with
  | none => exact h k
  | some chosen =>
    cases k
    · exact h .spotify
    · exact h .ytmusic
    · exact h .youtube
    · exact h .mpris
    · exact h .other

theorem run_WF (cfg : Config) (es : List Event) : (run cfg blankStore es).WF := by
  induction es using List.reverseRecOn with
  | nil => exact blankStore_WF
  | append_singleton es e ih =>
    rw [run_append_one]
    cases e with
    | report b now => exact postNowPlaying_WF _ b now ih
    | tick players nowChoose now => exact syncMprisToState_WF cfg _ players nowChoose now ih

/-! ## Empty and malformed reports -/

theorem run_positionInRange (cfg : Config) (es : List Event) :
    ∀ k, positionInRange ((run cfg blankStore es).get k) := by
  induction es using List.reverseRecOn with
  | nil =>
    intro k
    cases k <;> exact ⟨le_refl _, fun h => absurd h (lt_irrefl _)⟩
  | append_singleton es e ih =>
    intro k
    rw [run_append_one]
    cases e with
    | report b now => exact postNowPlaying_positionInRange _ b now ih k
    | tick players nowChoose now =>
      exact syncMprisToState_positionInRange cfg _ players nowChoose now ih k

theorem cleanStr_of_blankText (v : JsVal) (h : blankText v) : cleanStr v = none := by
  rcases h with h | h | h
  · rw [h]; rfl
  · rw [h]; rfl
  · cases v with
    | undefined => rfl
    | null => rfl
    | bool b => simp only [cleanStr, h, if_true]
    | num n t => simp only [cleanStr, h, if_true]
    | str s => simp only [cleanStr, h, if_true]
    | obj t => simp only [cleanStr, h, if_true]

theorem floorOrPrev_of_notFiniteNumber (v : JsVal) (prev : Int) (h : notFiniteNumber v) :
    floorOrPrev v prev = prev := by
  unfold floorOrPrev
  split
  · next q t => exact absurd rfl (h q t)
  · exact orZero_eq prev

theorem sanitizeIncoming_of_unusable (b : Body) (prev : SourceState) (now : Int)
    (hb : b.unusable) (hp : positionInRange prev) :
    sanitizeIncoming b prev now = { prev with playing := b.playing.truthy, ts := now } := by
  obtain ⟨hs, hpos, hdur, hy⟩ := hb
  have ht := cleanStr_of_blankText _ (hs .title)
  have ha := cleanStr_of_blankText _ (hs .artist)
  have hal := cleanStr_of_blankText _ (hs .album)
  have hu := cleanStr_of_blankText _ (hs .url)
  have hc := cleanStr_of_blankText _ (hs .cover)
  simp only [StrField.ofBody] at ht ha hal hu hc
  have hyear : (match b.year.toNumber with
      | .fin q => some q
      | _ => prev.year) = prev.year := by
    cases hn : b.year.toNumber with
    | fin q => exact absurd hn (hy q)
    | nan => rfl
    | posInf => rfl
    | negInf => rfl
  have hpos2 : (if prev.durationMs > 0 then clamp prev.positionMs 0 prev.durationMs
      else prev.positionMs) = prev.positionMs := by
    split
    · next hd =>
      unfold clamp
      rw [max_eq_right hp.1, min_eq_right (hp.2 hd)]
    · rfl
  unfold sanitizeIncoming
  simp only [ht, ha, hal, hu, hc, floorOrPrev_of_notFiniteNumber _ _ hpos,
    floorOrPrev_of_notFiniteNumber _ _ hdur, hyear, hpos2, Option.orElse]

theorem cleanStrRaw_plain (v : JsVal) : cleanStrRaw (.plain v) = .returned (cleanStr v) := by
  cases v <;> rfl

theorem floorOrPrevRaw_plain (v : JsVal) (prev : Int) :
    floorOrPrevRaw (.plain v) prev = floorOrPrev v prev := by
  unfold floorOrPrevRaw floorOrPrev
  split
  · next q t h =>
    cases h
    rfl
  · next hne =>
    split
    · next q t => exact absurd rfl (hne q t)
    · rfl

/-- On a body whose conversions succeed the parsed-body function returns, with the value of
`sanitizeIncoming`. -/
theorem sanitizeIncomingRaw_toRaw (b : Body) (prev : SourceState) (now : Int) :
    sanitizeIncomingRaw b.toRaw prev now = .returned (sanitizeIncoming b prev now) := by
  simp only [sanitizeIncomingRaw, Body.toRaw, cleanStrRaw_plain, floorOrPrevRaw_plain,
    RawVal.toNumber, RawVal.truthy, Outcome.andThen, sanitizeIncoming]

/-- A string field or a year on which the conversion throws makes the call throw. -/
theorem sanitizeIncomingRaw_threw (prev : SourceState) (now : Int) :
    sanitizeIncomingRaw { title := .hostile } prev now = .threw ∧
    sanitizeIncomingRaw { year := .hostile } prev now = .threw :=
  ⟨rfl, rfl⟩

theorem floorOrPrevRaw_of_rawNotFiniteNumber (v : RawVal) (prev : Int)
    (h : rawNotFiniteNumber v) : floorOrPrevRaw v prev = prev := by
  unfold floorOrPrevRaw
  split
  · next q t => exact absurd rfl (h q t)
  · exact orZero_eq prev

theorem sanitizeIncomingRaw_of_unusable (b : RawBody) (prev : SourceState) (now : Int)
    (hb : b.unusable) (hp : positionInRange prev) :
    sanitizeIncomingRaw b prev now =
      .returned { prev with playing := b.playing.truthy, ts := now } := by
  obtain ⟨hs, hpos, hdur, vy, hvy, hy⟩ := hb
  obtain ⟨v1, e1, b1⟩ := hs .title
  obtain ⟨v2, e2, b2⟩ := hs .artist
  obtain ⟨v3, e3, b3⟩ := hs .album
  obtain ⟨v4, e4, b4⟩ := hs .url
  obtain ⟨v5, e5, b5⟩ := hs .cover
  simp only [StrField.ofRaw] at e1 e2 e3 e4 e5
  have hyear : (match vy.toNumber with
      | .fin q => some q
      | _ => prev.year) = prev.year := by
    cases hn : vy.toNumber with
    | fin q => exact absurd hn (hy q)
    | nan => rfl
    | posInf => rfl
    | negInf => rfl
  have hpos2 : (if prev.durationMs > 0 then clamp prev.positionMs 0 prev.durationMs
      else prev.positionMs) = prev.positionMs := by
    split
    · next hd =>
      unfold clamp
      rw [max_eq_right hp.1, min_eq_right (hp.2 hd)]
    · rfl
  unfold sanitizeIncomingRaw
  simp only [e1, e2, e3, e4, e5, hvy, cleanStrRaw_plain, cleanStr_of_blankText _ b1,
    cleanStr_of_blankText _ b2, cleanStr_of_blankText _ b3, cleanStr_of_blankText _ b4,
    cleanStr_of_blankText _ b5, RawVal.toNumber, Outcome.andThen,
    floorOrPrevRaw_of_rawNotFiniteNumber _ _ hpos,
    floorOrPrevRaw_of_rawNotFiniteNumber _ _ hdur, hyear, hpos2, Option.orElse]

/-- C11 fails as stated: the ytmusic entry written by a playing report at 1000 is reachable
from the blank store and plays; the empty report applied to it at 2000 returns with `playing`
turned off, so the result differs from the previous state outside the timestamp. -/
theorem empty_report_counterexample :
    ((run defaultConfig blankStore [Event.report ytmusicReport 1000]).get
      SourceKey.ytmusic).playing = true ∧
    sanitizeIncomingRaw { }
        ((run defaultConfig blankStore [Event.report ytmusicReport 1000]).get SourceKey.ytmusic)
        2000 =
      .returned
        { (run defaultConfig blankStore [Event.report ytmusicReport 1000]).get
            SourceKey.ytmusic with playing := false, ts := 2000 } ∧
    sanitizeIncomingRaw { }
        ((run defaultConfig blankStore [Event.report ytmusicReport 1000]).get SourceKey.ytmusic)
        2000 ≠
      .returned
        { (run defaultConfig blankStore [Event.report ytmusicReport 1000]).get
            SourceKey.ytmusic with ts := 2000 } := by
  decide

/-- C11, amended: on every state reachable from the blank store, `sanitizeIncoming` applied to
an empty report, or to a report whose string fields are absent, null or of blank text, whose
`positionMs` and `durationMs` are not finite numbers and whose `year` converts to something
that is not a finite number, returns (it does not throw), and the state returned is the
previous one with the timestamp set to the write time and the `playing` flag taken from the
report (false when absent); every other field is kept.  Nothing is said of a report holding,
in a string field or in `year`, an object whose conversion throws. -/
theorem sanitizeIncoming_refreshes_time_and_playing (cfg : Config) (es : List Event)
    (k : SourceKey) (now : Int) :
    sanitizeIncomingRaw { } ((run cfg blankStore es).get k) now =
        .returned { (run cfg blankStore es).get k with playing := false, ts := now } ∧
    ∀ b : RawBody, b.unusable →
      sanitizeIncomingRaw b ((run cfg blankStore es).get k) now =
        .returned
          { (run cfg blankStore es).get k with playing := b.playing.truthy, ts := now } := by
  have hp := run_positionInRange cfg es k
  have hempty : ({ } : RawBody).unusable := by
    refine ⟨fun f => ⟨.undefined, ?_, Or.inl rfl⟩, fun q t h => ?_, fun q t h => ?_,
      ⟨.undefined, rfl, fun q h => ?_⟩⟩
    · cases f <;> rfl
    · cases h
    · cases h
    · cases h
  refine ⟨?_, fun b hb => sanitizeIncomingRaw_of_unusable b _ now hb hp⟩
  exact sanitizeIncomingRaw_of_unusable { } _ now hempty hp

/-- Witness of C11 amended: over the spotify entry written by the end-to-end report, a parsed
report whose fields are all malformed, with objects in `playing` and `positionMs`, returns the
entry with title, position, duration and year kept, the time set, and `playing` true, an
object being truthy. -/
theorem sanitizeIncoming_refreshes_time_and_playing_witness :
    sanitizeIncomingRaw malformedRawReport
        ((run defaultConfig blankStore [Event.report spotifyReport 1000]).get SourceKey.spotify)
        2000 =
      .returned
        { (run defaultConfig blankStore [Event.report spotifyReport 1000]).get
            SourceKey.spotify with playing := true, ts := 2000 } ∧
    ((run defaultConfig blankStore [Event.report spotifyReport 1000]).get
      SourceKey.spotify).positionMs = 1000 := by
  have hn : (JsVal.str "abc").toNumber = JsNum.nan := by decide
  have hb : malformedRawReport.unusable := by
    refine ⟨fun f => ?_, fun q t h => ?_, fun q t h => ?_, ⟨.str "abc", rfl, fun q h => ?_⟩⟩
    · cases f
      · exact ⟨.str "   ", rfl, by decide⟩
      · exact ⟨.null, rfl, by decide⟩
      · exact ⟨.str "", rfl, by decide⟩
      · exact ⟨.obj "", rfl, by decide⟩
      · exact ⟨.null, rfl, by decide⟩
    · cases h
    · cases h
    · rw [hn] at h
      cases h
  exact ⟨(sanitizeIncoming_refreshes_time_and_playing defaultConfig
    [Event.report spotifyReport 1000] SourceKey.spotify 2000).2 malformedRawReport hb, by decide⟩

/-! ## The bridge: projection tick and player selection -/

theorem syncMprisToState_position (cfg : Config) (st : Store) (players : List PlayerSnapshot)
    (nowChoose now : Int) (chosen : PlayerSnapshot)
    (hc : chooseMprisPlayer cfg players none nowChoose = some chosen)
    (hp : chosen.playing = true) (hT : chosen._posBaseTs ≠ 0) :
    (syncMprisToState cfg st players nowChoose now).mpris.positionMs =
      if chosen.durationMs > 0 then
        min chosen.durationMs (max 0 (chosen._posBaseMs + (now - chosen._posBaseTs)))
      else max 0 (chosen._posBaseMs + (now - chosen._posBaseTs)) := by
  unfold syncMprisToState
  rw [hc]
  simp only [hp, hT, ne_eq, not_false_eq_true, and_self, if_true, orZero_eq, clamp]
  split <;> simp only [Int.floor_intCast]

/-- C12 fails as stated at duration 0: the playing snapshot with base 10000 captured at 1000 and
no known duration, projected at 3500, gets position 12500, not the duration 0 that "gives d when
d < 12500" announces. -/
theorem interpolation_counterexample :
    chooseMprisPlayer defaultConfig [untimedSnapshot] none 3500 = some untimedSnapshot ∧
    untimedSnapshot.playing = true ∧
    untimedSnapshot._posBaseMs = 10000 ∧
    untimedSnapshot._posBaseTs = 1000 ∧
    untimedSnapshot.durationMs = 0 ∧
    (syncMprisToState defaultConfig blankStore [untimedSnapshot] 3500 3500).mpris.positionMs
      = 12500 ∧
    (syncMprisToState defaultConfig blankStore [untimedSnapshot] 3500 3500).mpris.positionMs
      ≠ untimedSnapshot.durationMs := by
  decide

/-- C12, amended: for a chosen player that plays, with base value `b` captured at a non-zero
base time `T` and duration `d`, the tick at `now` writes `b + (now - T)` clamped into `[0, d]`
when `d > 0` and `max 0 (b + (now - T))` when `d = 0`; with `b = 10000` and `now = T + 2500`
that is 12500 when `d >= 12500`, `d` when `0 < d < 12500`, and 12500 when `d = 0`. -/
theorem tick_interpolates_position (cfg : Config) (st : Store) (players : List PlayerSnapshot)
    (nowChoose now : Int) (chosen : PlayerSnapshot)
    (hc : chooseMprisPlayer cfg players none nowChoose = some chosen)
    (hp : chosen.playing = true) (hT : chosen._posBaseTs ≠ 0) :
    (0 < chosen.durationMs →
      (syncMprisToState cfg st players nowChoose now).mpris.positionMs =
        min chosen.durationMs (max 0 (chosen._posBaseMs + (now - chosen._posBaseTs)))) ∧
    (chosen.durationMs = 0 →
      (syncMprisToState cfg st players nowChoose now).mpris.positionMs =
        max 0 (chosen._posBaseMs + (now - chosen._posBaseTs))) ∧
    (chosen._posBaseMs = 10000 → now = chosen._posBaseTs + 2500 →
      (12500 ≤ chosen.durationMs →
        (syncMprisToState cfg st players nowChoose now).mpris.positionMs = 12500) ∧
      (0 < chosen.durationMs → chosen.durationMs < 12500 →
        (syncMprisToState cfg st players nowChoose now).mpris.positionMs =
          chosen.durationMs) ∧
      (chosen.durationMs = 0 →
        (syncMprisToState cfg st players nowChoose now).mpris.positionMs = 12500)) := by
  have h := syncMprisToState_position cfg st players nowChoose now chosen hc hp hT
  refine ⟨?_, ?_, ?_⟩
  · intro hd
    rw [h, if_pos hd]
  · intro hd
    rw [h, if_neg (by omega)]
  · intro hb hn
    have hx : chosen._posBaseMs + (now - chosen._posBaseTs) = 12500 := by omega
    rw [h, hx]
    refine ⟨?_, ?_, ?_⟩
    · intro hd
      rw [if_pos (by omega), max_eq_right (by omega), min_eq_right hd]
    · intro hd hlt
      rw [if_pos hd, max_eq_right (by omega), min_eq_left (by omega)]
    · intro hd
      rw [if_neg (by omega), max_eq_right (by omega)]

/-- Witness of C12 amended: the snapshot with base 10000 captured at 1000 and duration 12000,
projected at 3500, gets the duration 12000. -/
theorem tick_interpolates_position_witness :
    (syncMprisToState defaultConfig blankStore [vlcSnapshot] 3500 3500).mpris.positionMs
      = vlcSnapshot.durationMs :=
  (tick_interpolates_position defaultConfig blankStore [vlcSnapshot] 3500 3500 vlcSnapshot
    (by decide) (by decide) (by decide)).2.2 (by decide) (by decide) |>.2.1
    (by decide) (by decide)

theorem matchesHint_spotify (name : String) :
    matchesHint name (some "spotify") = jsIncludes (jsToLower name) "spotify" := by
  have h : hintTerms (some "spotify") = ["spotify"] := by decide
  unfold matchesHint
  rw [h]
  simp

/-- The candidates of `chooseMprisPlayer`. -/
theorem chooseMprisPlayer_eq (cfg : Config) (players : List PlayerSnapshot)
    (hint : Option String) (now : Int) (h : players ≠ []) :
    chooseMprisPlayer cfg players hint now =
      firstMin (playerCmp cfg hint)
        (if (if players.filter (fun p => decide (isFreshish cfg now p)) ≠ []
              then players.filter (fun p => decide (isFreshish cfg now p))
              else players).filter (fun p => p.playing) ≠ []
          then (if players.filter (fun p => decide (isFreshish cfg now p)) ≠ []
              then players.filter (fun p => decide (isFreshish cfg now p))
              else players).filter (fun p => p.playing)
          else (if players.filter (fun p => decide (isFreshish cfg now p)) ≠ []
              then players.filter (fun p => decide (isFreshish cfg now p))
              else players)) := by
  have hf : (fun p : PlayerSnapshot =>
      decide (p.ts ≠ 0) && decide (now - p.ts ≤ cfg.STALE_MS * 3)) =
      fun p => decide (isFreshish cfg now p) := by
    funext p
    simp [isFreshish]
  unfold chooseMprisPlayer
  simp only [List.length_eq_zero, h, if_false, head?_jsSort, hf, ne_eq]

/-- C13 fails as stated: with the playing spotify snapshot refreshed at 1000 and a paused
browser snapshot refreshed at 100000, at 100500 only the browser passes the narrowing to
`3 * STALE_MS`, and the hint "spotify" selects the browser. -/
theorem spotify_hint_counterexample :
    spotifySnapshot.playing = true ∧
    jsIncludes (jsToLower spotifySnapshot.name) "spotify" = true ∧
    jsIncludes (jsToLower firefoxSnapshot.name) "spotify" = false ∧
    spotifySnapshot.ts < firefoxSnapshot.ts ∧
    chooseMprisPlayer defaultConfig [spotifySnapshot, firefoxSnapshot] (some "spotify") 100500
      = some firefoxSnapshot := by
  decide

/-- C13, amended: of two known snapshots, one playing with a name containing "spotify" (case
ignored) and one whose name does not contain it, `chooseMprisPlayer("spotify")` returns the
spotify-named one, whatever the timestamps' order and the preference list, unless only the
other snapshot was refreshed within `3 * STALE_MS`. -/
theorem choose_spotify_hint (cfg : Config) (p q : PlayerSnapshot)
    (players : List PlayerSnapshot) (now : Int)
    (hpl : players = [p, q] ∨ players = [q, p])
    (hp : p.playing = true)
    (hpn : jsIncludes (jsToLower p.name) "spotify" = true)
    (hqn : jsIncludes (jsToLower q.name) "spotify" = false)
    (hfresh : isFreshish cfg now q → isFreshish cfg now p) :
    chooseMprisPlayer cfg players (some "spotify") now = some p := by
  have hne : players ≠ [] := by rcases hpl with h | h <;> simp [h]
  have hmp := matchesHint_spotify p.name
  have hmq := matchesHint_spotify q.name
  rw [hpn] at hmp
  rw [hqn] at hmq
  have c1 : playerCmp cfg (some "spotify") p q ≤ 0 := by
    simp [playerCmp, hmp, hmq]
  have c2 : ¬ playerCmp cfg (some "spotify") q p ≤ 0 := by
    simp [playerCmp, hmp, hmq]
  rw [chooseMprisPlayer_eq cfg players _ now hne]
  by_cases fq : isFreshish cfg now q
  · have fp := hfresh fq
    rcases hpl with h | h <;> cases hq : q.playing <;>
      simp [h, fp, fq, hp, hq, firstMin, c1, c2]
  · by_cases fp : isFreshish cfg now p
    · rcases hpl with h | h <;> simp [h, fp, fq, hp, firstMin]
    · rcases hpl with h | h <;> cases hq : q.playing <;>
        simp [h, fp, fq, hp, hq, firstMin, c1, c2]

/-- Witness of C13 amended: queried at 200000, when neither snapshot is within `3 * STALE_MS`,
the hint selects spotify although the browser was refreshed later. -/
theorem choose_spotify_hint_witness :
    chooseMprisPlayer defaultConfig [firefoxSnapshot, spotifySnapshot] (some "spotify") 200000
      = some spotifySnapshot :=
  choose_spotify_hint defaultConfig spotifySnapshot firefoxSnapshot
    [firefoxSnapshot, spotifySnapshot] 200000 (Or.inr rfl) (by decide) (by decide) (by decide)
    (by decide)

theorem chooseMprisPlayer_isSome (cfg : Config) (players : List PlayerSnapshot)
    (hint : Option String) (now : Int) (h : players ≠ []) :
    ∃ c, chooseMprisPlayer cfg players hint now = some c ∧ c ∈ players := by
  rw [chooseMprisPlayer_eq cfg players hint now h]
  generalize hb : (if players.filter (fun p => decide (isFreshish cfg now p)) ≠ []
      then players.filter (fun p => decide (isFreshish cfg now p)) else players) = base
  have hbase : base ≠ [] := by
    rw [← hb]
    split
    · next h1 => exact h1
    · exact h
  have hsub : ∀ x ∈ base, x ∈ players := by
    rw [← hb]
    intro x hx
    split at hx
    · exact (List.mem_filter.1 hx).1
    · exact hx
  by_cases h2 : base.filter (fun p => p.playing) ≠ []
  · rw [if_pos h2]
    obtain ⟨c, hc⟩ := firstMin_isSome (playerCmp cfg hint) _ h2
    exact ⟨c, hc, hsub c (List.mem_filter.1 (firstMin_mem _ _ c hc)).1⟩
  · rw [if_neg h2]
    obtain ⟨c, hc⟩ := firstMin_isSome (playerCmp cfg hint) _ hbase
    exact ⟨c, hc, hsub c (firstMin_mem _ _ c hc)⟩

/-- C14: for every non-empty list of snapshots, hint and preference list, when some snapshot
refreshed within `3 * STALE_MS` plays, `chooseMprisPlayer` returns a snapshot that plays and was
refreshed within `3 * STALE_MS`; and when no snapshot is within `3 * STALE_MS`, it returns one
of the known snapshots, a playing one if any plays. -/
theorem choose_prefers_recent_playing (cfg : Config) (players : List PlayerSnapshot)
    (hint : Option String) (now : Int) :
    ((∃ p ∈ players, isFreshish cfg now p ∧ p.playing = true) →
      ∃ c, chooseMprisPlayer cfg players hint now = some c ∧ c ∈ players ∧
        c.playing = true ∧ isFreshish cfg now c) ∧
    (players ≠ [] → (∀ p ∈ players, ¬ isFreshish cfg now p) →
      ∃ c, chooseMprisPlayer cfg players hint now = some c ∧ c ∈ players ∧
        ((∃ p ∈ players, p.playing = true) → c.playing = true)) := by
  constructor
  · rintro ⟨p, hp, hf, hpl⟩
    have hne : players ≠ [] := List.ne_nil_of_mem hp
    have h1 : players.filter (fun p => decide (isFreshish cfg now p)) ≠ [] :=
      List.ne_nil_of_mem (List.mem_filter.2 ⟨hp, by simpa using hf⟩)
    have h2 : (players.filter (fun p => decide (isFreshish cfg now p))).filter
        (fun p => p.playing) ≠ [] :=
      List.ne_nil_of_mem (List.mem_filter.2 ⟨List.mem_filter.2 ⟨hp, by simpa using hf⟩, hpl⟩)
    rw [chooseMprisPlayer_eq cfg players hint now hne]
    simp only [if_pos h1, if_pos h2]
    obtain ⟨c, hc⟩ := firstMin_isSome (playerCmp cfg hint) _ h2
    have hm := List.mem_filter.1 (firstMin_mem _ _ c hc)
    have hm2 := List.mem_filter.1 hm.1
    exact ⟨c, hc, hm2.1, hm.2, by simpa using hm2.2⟩
  · intro hne hall
    have h1 : players.filter (fun p => decide (isFreshish cfg now p)) = [] := by
      rw [List.filter_eq_nil_iff]
      intro p hp
      simpa using hall p hp
    rw [chooseMprisPlayer_eq cfg players hint now hne]
    simp only [h1, ne_eq, not_true_eq_false, if_false]
    by_cases h2 : players.filter (fun p => p.playing) ≠ []
    · rw [if_pos h2]
      obtain ⟨c, hc⟩ := firstMin_isSome (playerCmp cfg hint) _ h2
      have hm := List.mem_filter.1 (firstMin_mem _ _ c hc)
      exact ⟨c, hc, hm.1, fun _ => hm.2⟩
    · rw [if_neg h2]
      obtain ⟨c, hc⟩ := firstMin_isSome (playerCmp cfg hint) _ hne
      refine ⟨c, hc, firstMin_mem _ _ c hc, ?_⟩
      rintro ⟨p, hp, hpl⟩
      exact absurd (List.ne_nil_of_mem (List.mem_filter.2 ⟨hp, hpl⟩)) h2

/-- Witness of C14: with a paused spotify snapshot refreshed at 3000, matching the hint and
ranked first by the preference list, and the playing snapshot refreshed at 1000, the choice at
3500 is the playing one; and at 200000, when neither is recent, a snapshot is still chosen. -/
theorem choose_prefers_recent_playing_witness :
    (∃ c, chooseMprisPlayer spotifyFirstConfig [pausedSpotifySnapshot, vlcSnapshot]
        (some "spotify") 3500 = some c ∧ c ∈ [pausedSpotifySnapshot, vlcSnapshot] ∧
        c.playing = true ∧ isFreshish spotifyFirstConfig 3500 c) ∧
    chooseMprisPlayer spotifyFirstConfig [pausedSpotifySnapshot, vlcSnapshot]
        (some "spotify") 3500 = some vlcSnapshot ∧
    (∃ c, chooseMprisPlayer spotifyFirstConfig [pausedSpotifySnapshot, vlcSnapshot]
        (some "spotify") 200000 = some c ∧ c ∈ [pausedSpotifySnapshot, vlcSnapshot] ∧
        ((∃ p ∈ [pausedSpotifySnapshot, vlcSnapshot], p.playing = true) → c.playing = true)) :=
  ⟨(choose_prefers_recent_playing spotifyFirstConfig [pausedSpotifySnapshot, vlcSnapshot]
      (some "spotify") 3500).1 ⟨vlcSnapshot, by decide, by decide, by decide⟩,
    by decide,
    (choose_prefers_recent_playing spotifyFirstConfig [pausedSpotifySnapshot, vlcSnapshot]
      (some "spotify") 200000).2 (by decide) (by decide)⟩

/-- C15: the projection tick changes only the entry under the key `mpris`: the entries of
spotify, ytmusic, youtube and other are the same before and after, and when no player can be
chosen, which happens exactly when the player map is empty, the whole store is unchanged. -/
theorem tick_touches_only_bridge_entry (cfg : Config) (st : Store)
    (players : List PlayerSnapshot) (nowChoose now : Int) :
    (∀ k, k ≠ SourceKey.mpris →
      (syncMprisToState cfg st players nowChoose now).get k = st.get k) ∧
    (chooseMprisPlayer cfg players none nowChoose = none →
      syncMprisToState cfg st players nowChoose now = st) ∧
    (chooseMprisPlayer cfg players none nowChoose = none ↔ players = []) ∧
    syncMprisToState cfg st [] nowChoose now = st := by
  refine ⟨?_, ?_, ?_, rfl⟩
  · intro k hk
    unfold syncMprisToState
    cases chooseMprisPlayer cfg players none nowChoose with
    | none => rfl
    | some chosen =>
      cases k
      · rfl
      · rfl
      · rfl
      · exact absurd rfl hk
      · rfl
  · intro h
    unfold syncMprisToState
    rw [h]
  · constructor
    · intro h
      by_contra hne
      obtain ⟨c, hc, -⟩ := chooseMprisPlayer_isSome cfg players none nowChoose hne
      rw [hc] at h
      cases h
    · intro h
      rw [h]
      rfl

/-- Witness of C15: a tick over a store with two playing sources leaves the spotify entry as
it was and does write the bridge entry. -/
theorem tick_touches_only_bridge_entry_witness :
    (syncMprisToState defaultConfig storeTwoPlaying [vlcSnapshot] 3000 3000).get
        SourceKey.spotify = storeTwoPlaying.get SourceKey.spotify ∧
    (syncMprisToState defaultConfig storeTwoPlaying [vlcSnapshot] 3000 3000).get
        SourceKey.mpris ≠ storeTwoPlaying.get SourceKey.mpris ∧
    syncMprisToState defaultConfig storeTwoPlaying [] 3000 3000 = storeTwoPlaying :=
  ⟨(tick_touches_only_bridge_entry defaultConfig storeTwoPlaying [vlcSnapshot] 3000 3000).1
      SourceKey.spotify (by decide),
    by decide,
    (tick_touches_only_bridge_entry defaultConfig storeTwoPlaying [] 3000 3000).2.1 rfl⟩

/-! ## The year of a metadata map -/

theorem yearAtHead_range (l : List Char) (y : Int) (h : yearAtHead l = some y) :
    1900 ≤ y ∧ y ≤ 2099 := by
  match l, h with
  | a :: b :: c :: d :: rest, h =>
    simp only [yearAtHead] at h
    split at h
    · next hcond =>
      obtain ⟨hab, hc, hd, -⟩ := hcond
      simp only [isDigitChar, Bool.and_eq_true, decide_eq_true_eq] at hc hd
      simp only [Option.some.injEq] at h
      have ha : (a.toNat = 49 ∧ b.toNat = 57) ∨ (a.toNat = 50 ∧ b.toNat = 48) := by
        rcases hab with ⟨h1, h2⟩ | ⟨h1, h2⟩
        · left; subst h1; subst h2; exact ⟨rfl, rfl⟩
        · right; subst h1; subst h2; exact ⟨rfl, rfl⟩
      omega
    · cases h

theorem findYear_range (l : List Char) :
    ∀ (prevWord : Bool) (y : Int), findYear prevWord l = some y → 1900 ≤ y ∧ y ≤ 2099 := by
  induction l with
  | nil =>
    intro prevWord y h
    simp [findYear] at h
  | cons c cs ih =>
    intro prevWord y h
    simp only [findYear] at h
    cases prevWord with
    | true =>
      simp only [if_true] at h
      exact ih _ y h
    | false =>
      simp only [Bool.false_eq_true, if_false] at h
      cases hy : yearAtHead (c :: cs) with
      | none =>
        rw [hy] at h
        exact ih _ y h
      | some z =>
        rw [hy] at h
        simp only [Option.some.injEq] at h
        subst h
        exact yearAtHead_range _ z hy

theorem yearFromAny_range (x : MdProp) (y : Int) (h : yearFromAny x = some y) :
    1900 ≤ y ∧ y ≤ 2099 := by
  unfold yearFromAny at h
  cases hc : cleanStr (variantVal x).toJs with
  | none =>
    rw [hc] at h
    cases h
  | some v =>
    rw [hc] at h
    exact findYear_range _ false y h

theorem orNumber_of_year (x : MdProp) (b : Option Int) :
    orNumber (yearFromAny x) b = (yearFromAny x).orElse (fun _ => b) := by
  cases hy : yearFromAny x with
  | none => rfl
  | some y =>
    have hr := yearFromAny_range x y hy
    have hne : y ≠ 0 := by omega
    simp [orNumber, hne]

/-- C16: the year of `parseMetadata` is the one `yearFromAny` finds in `xesam:date` when there
is one, otherwise the one found in `xesam:contentCreated`, otherwise the one found in
`xesam:comment`, and null when none of the three holds one; a year in a later field never
replaces one found in an earlier field, and a non-null year lies between 1900 and 2099. -/
theorem parseMetadata_year_priority (md : Metadata) :
    (∀ y, yearFromAny md.xesam_date = some y → (parseMetadata md).year = some y) ∧
    (yearFromAny md.xesam_date = none →
      ∀ y, yearFromAny md.xesam_contentCreated = some y → (parseMetadata md).year = some y) ∧
    (yearFromAny md.xesam_date = none → yearFromAny md.xesam_contentCreated = none →
      (parseMetadata md).year = yearFromAny md.xesam_comment) ∧
    (yearFromAny md.xesam_date = none → yearFromAny md.xesam_contentCreated = none →
      yearFromAny md.xesam_comment = none → (parseMetadata md).year = none) ∧
    (∀ y, (parseMetadata md).year = some y → 1900 ≤ y ∧ y ≤ 2099) := by
  have hyear : (parseMetadata md).year =
      (yearFromAny md.xesam_date).orElse (fun _ =>
        (yearFromAny md.xesam_contentCreated).orElse (fun _ =>
          yearFromAny md.xesam_comment)) := by
    have h3 : orNumber (yearFromAny md.xesam_comment) none = yearFromAny md.xesam_comment := by
      rw [orNumber_of_year]
      cases yearFromAny md.xesam_comment <;> rfl
    simp only [parseMetadata, h3, orNumber_of_year]
  refine ⟨?_, ?_, ?_, ?_, ?_⟩
  · intro y h
    rw [hyear, h]
    rfl
  · intro h1 y h2
    rw [hyear, h1, h2]
    rfl
  · intro h1 h2
    rw [hyear, h1, h2]
    rfl
  · intro h1 h2 h3
    rw [hyear, h1, h2, h3]
    rfl
  · intro y h
    rw [hyear] at h
    cases h1 : yearFromAny md.xesam_date with
    | some a =>
      rw [h1] at h
      simp only [Option.orElse, Option.some.injEq] at h
      subst h
      exact yearFromAny_range _ a h1
    | none =>
      rw [h1] at h
      cases h2 : yearFromAny md.xesam_contentCreated with
      | some a =>
        rw [h2] at h
        simp only [Option.orElse, Option.some.injEq] at h
        subst h
        exact yearFromAny_range _ a h2
      | none =>
        rw [h2] at h
        exact yearFromAny_range _ y h

/-- Witness of C16: a map with the years 2021, 2019 and 1987 in date, creation date and comment
gets 2021; a map without date, whose creation date "id20211x" holds no year, gets the 1987 of
its comment. -/
theorem parseMetadata_year_priority_witness :
    (parseMetadata datedMetadata).year = some 2021 ∧
    yearFromAny datedMetadata.xesam_contentCreated = some 2019 ∧
    (parseMetadata commentedMetadata).year = yearFromAny commentedMetadata.xesam_comment ∧
    yearFromAny commentedMetadata.xesam_comment = some 1987 ∧
    (1900 : Int) ≤ 2021 ∧ (2021 : Int) ≤ 2099 :=
  ⟨(parseMetadata_year_priority datedMetadata).1 2021 (by decide),
    by decide,
    (parseMetadata_year_priority commentedMetadata).2.2.1 (by decide) (by decide),
    by decide,
    (parseMetadata_year_priority datedMetadata).2.2.2.2 2021 (by decide)⟩

/-! ## Ties in arbitration -/

theorem firstMin_filter_split {α : Type} (key : α → Int) (f : α → Bool) (x : α)
    (post : List α) (hx : f x = true) (hpost : ∀ y ∈ post, f y = true → key y ≤ key x) :
    ∀ pre : List α, (∀ y ∈ pre, f y = true → key y < key x) →
      firstMin (fun a b => key b - key a) ((pre ++ x :: post).filter f) = some x := by
  intro pre
  induction pre with
  | nil =>
    intro _
    simp only [List.nil_append, List.filter_cons, hx, if_true, firstMin]
    cases hm : firstMin (fun a b => key b - key a) (post.filter f) with
    | none => rfl
    | some b =>
      have hb := List.mem_filter.1 (firstMin_mem _ _ b hm)
      have := hpost b hb.1 hb.2
      simp only
      rw [if_pos (by omega)]
  | cons y pre ih =>
    intro hpre
    have ih2 := ih (fun z hz => hpre z (List.mem_cons_of_mem _ hz))
    simp only [List.cons_append, List.filter_cons]
    by_cases hy : f y = true
    · have hlt := hpre y (List.mem_cons_self _ _) hy
      simp only [hy, if_true, firstMin, ih2]
      rw [if_neg (by omega)]
    · simp only [hy, Bool.false_eq_true, if_false]
      exact ih2

theorem values_split (st : Store) (k : SourceKey) :
    st.values =
      ((allKeys.filter (fun j => decide (j.index < k.index))).map st.get) ++
        st.get k :: ((allKeys.filter (fun j => decide (k.index < j.index))).map st.get) := by
  cases k <;> rfl

theorem playingFreshList_eq_filter (cfg : Config) (st : Store) (now : Int) :
    playingFreshList cfg st now = st.values.filter (fun s =>
      s.playing && (decide (isFreshAt cfg now s) &&
        !(isTamperFresh cfg st now && decide (s.source = SourceKey.mpris)))) := by
  simp only [playingFreshList, freshList, List.filter_filter]

theorem freshList_eq_filter (cfg : Config) (st : Store) (now : Int) :
    freshList cfg st now = st.values.filter (fun s =>
      decide (isFreshAt cfg now s) &&
        !(isTamperFresh cfg st now && decide (s.source = SourceKey.mpris))) := by
  simp only [freshList, List.filter_filter]

theorem firstMin_values_filter (st : Store) (f : SourceState → Bool) (k : SourceKey)
    (hk : f (st.get k) = true)
    (hmax : ∀ s ∈ st.values.filter f, s.ts ≤ (st.get k).ts)
    (hfirst : ∀ j : SourceKey, j.index < k.index → st.get j ∈ st.values.filter f →
      (st.get j).ts < (st.get k).ts) :
    firstMin (fun a b : SourceState => b.ts - a.ts) (st.values.filter f) = some (st.get k) := by
  have hv := values_split st k
  have hmem : ∀ j, st.get j ∈ st.values := fun j => (mem_values_iff st _).2 ⟨j, rfl⟩
  rw [hv]
  apply firstMin_filter_split (fun s : SourceState => s.ts) f (st.get k) _ hk
  · intro y hy hfy
    simp only [List.mem_map, List.mem_filter] at hy
    obtain ⟨j, -, rfl⟩ := hy
    exact hmax _ (List.mem_filter.2 ⟨hmem j, hfy⟩)
  · intro y hy hfy
    simp only [List.mem_map, List.mem_filter, decide_eq_true_eq] at hy
    obtain ⟨j, ⟨-, hj⟩, rfl⟩ := hy
    exact hfirst j hj (List.mem_filter.2 ⟨hmem j, hfy⟩)

/-- C17: when the entry under the key `k` belongs to the winning class (the fresh playing
candidates, or the fresh candidates when none plays), no member of the class has a larger
timestamp, and the members under earlier keys, in the order spotify, ytmusic, youtube, mpris,
other, have a strictly smaller one, `pickActive` answers the entry under `k`: among the members
sharing the largest timestamp the first key wins. -/
theorem pickActive_tie_first_key (cfg : Config) (st : Store) (now : Int) (k : SourceKey)
    (hk : isWinner cfg st now (st.get k))
    (hmax : ∀ s, isWinner cfg st now s → s.ts ≤ (st.get k).ts)
    (hfirst : ∀ j : SourceKey, j.index < k.index → isWinner cfg st now (st.get j) →
      (st.get j).ts < (st.get k).ts) :
    (pickActive cfg st now).active = some (annotate cfg now (st.get k)) ∧
    (pickActive cfg st now).reason = (if (st.get k).playing then "playing" else "paused") := by
  rw [pickActive_eq]
  by_cases hp : playingFreshList cfg st now ≠ []
  · obtain ⟨x, hx⟩ := List.exists_mem_of_ne_nil _ hp
    have hex : ∃ x, isCandidate cfg st now x ∧ isFreshAt cfg now x ∧ x.playing = true :=
      ⟨x, (mem_playingFreshList cfg st now x).1 hx⟩
    have hw : ∀ s, s ∈ playingFreshList cfg st now → isWinner cfg st now s := by
      intro s hs
      obtain ⟨h1, h2, h3⟩ := (mem_playingFreshList cfg st now s).1 hs
      exact ⟨h1, h2, fun _ => h3⟩
    have hkm : st.get k ∈ playingFreshList cfg st now :=
      (mem_playingFreshList cfg st now _).2 ⟨hk.1, hk.2.1, hk.2.2 hex⟩
    have hkp : (st.get k).playing = true := hk.2.2 hex
    rw [if_pos hp]
    have hfm : firstMin (fun a b : SourceState => b.ts - a.ts) (playingFreshList cfg st now) =
        some (st.get k) := by
      rw [playingFreshList_eq_filter] at hkm hw ⊢
      exact firstMin_values_filter st _ k (List.mem_filter.1 hkm).2
        (fun s hs => hmax s (hw s hs)) (fun j hj hm => hfirst j hj (hw _ hm))
    simp only [hfm, Option.map_some', hkp, if_true, and_self]
  · have hnil : playingFreshList cfg st now = [] := by simpa using hp
    have hw : ∀ s, s ∈ freshList cfg st now → isWinner cfg st now s := by
      intro s hs
      obtain ⟨h1, h2⟩ := (mem_freshList cfg st now s).1 hs
      refine ⟨h1, h2, ?_⟩
      rintro ⟨x, hx⟩
      have := (mem_playingFreshList cfg st now x).2 hx
      rw [hnil] at this
      cases this
    have hkm : st.get k ∈ freshList cfg st now :=
      (mem_freshList cfg st now _).2 ⟨hk.1, hk.2.1⟩
    have hkp : (st.get k).playing = false := by
      cases hpl : (st.get k).playing
      · rfl
      · have := (mem_playingFreshList cfg st now _).2 ⟨hk.1, hk.2.1, hpl⟩
        rw [hnil] at this
        cases this
    rw [if_neg hp, if_pos (List.ne_nil_of_mem hkm)]
    have hfm : firstMin (fun a b : SourceState => b.ts - a.ts) (freshList cfg st now) =
        some (st.get k) := by
      rw [freshList_eq_filter] at hkm hw ⊢
      exact firstMin_values_filter st _ k (List.mem_filter.1 hkm).2
        (fun s hs => hmax s (hw s hs)) (fun j hj hm => hfirst j hj (hw _ hm))
    simp only [hfm, Option.map_some', hkp, Bool.false_eq_true, if_false, and_self]

/-- Witness of C17: spotify and ytmusic both play and share the timestamp 1000 (youtube is
newer but paused); at 3000 the answer is spotify. -/
theorem pickActive_tie_first_key_witness :
    (pickActive defaultConfig storeTie 3000).active =
      some (annotate defaultConfig 3000 (storeTie.get SourceKey.spotify)) ∧
    (pickActive defaultConfig storeTie 3000).reason = "playing" ∧
    (storeTie.get SourceKey.ytmusic).playing = true ∧
    (storeTie.get SourceKey.ytmusic).ts = (storeTie.get SourceKey.spotify).ts := by
  have hex : ∃ x, isCandidate defaultConfig storeTie 3000 x ∧
      isFreshAt defaultConfig 3000 x ∧ x.playing = true :=
    ⟨storeTie.get SourceKey.spotify, by decide, by decide, by decide⟩
  have hv : ∀ x ∈ storeTie.values, x.playing = true → x.ts ≤ 1000 := by decide
  have h := pickActive_tie_first_key defaultConfig storeTie 3000 SourceKey.spotify
    ⟨by decide, by decide, fun _ => by decide⟩
    (fun s hs => hv s hs.1.1 (hs.2.2 hex))
    (fun j hj _ => by cases j <;> simp [SourceKey.index] at hj)
  exact ⟨h.1, h.2, by decide, by decide⟩

/-! ## Suppression and the answer -/

/-- C18 fails as stated: with the bridge key as the trusted set (and the default
`TM_TTL_MS <= STALE_MS`), over a well-formed store whose only written entry is the bridge one,
suppression is active at 2000 and `pickActive` answers no active entry, reason "none". -/
theorem suppression_counterexample :
    selfTrustConfig.TM_TTL_MS ≤ selfTrustConfig.STALE_MS ∧
    storeBridgeOnly.WF ∧
    isTamperFresh selfTrustConfig storeBridgeOnly 2000 = true ∧
    pickActive selfTrustConfig storeBridgeOnly 2000 =
      { active := none, stale := true, reason := "none" } := by
  refine ⟨by decide, ?_, by decide, by decide⟩
  intro k
  cases k <;> rfl

/-- C18, amended: provided `TM_TTL_MS <= STALE_MS` and the bridge key `mpris` is not among the
trusted sources, over every store whose entries record their keys and at every time at which
some trusted source was updated within `TM_TTL_MS`, `pickActive` answers an active entry with
reason "playing" or "paused", and that entry is not the bridge entry. -/
theorem suppression_keeps_an_answer (cfg : Config) (st : Store) (now : Int)
    (hwf : st.WF) (httl : cfg.TM_TTL_MS ≤ cfg.STALE_MS)
    (hm : SourceKey.mpris ∉ cfg.TM_SOURCES)
    (h : ∃ k ∈ cfg.TM_SOURCES, (st.get k).ts ≠ 0 ∧ now - (st.get k).ts ≤ cfg.TM_TTL_MS) :
    ∃ a, (pickActive cfg st now = { active := some a, stale := false, reason := "playing" } ∨
        pickActive cfg st now = { active := some a, stale := false, reason := "paused" }) ∧
      a.source ≠ SourceKey.mpris ∧ a.toSourceState ≠ st.mpris := by
  have ht : isTamperFresh cfg st now = true := (isTamperFresh_iff cfg st now).2 h
  obtain ⟨k, hk, hts, hage⟩ := h
  have hkm : k ≠ SourceKey.mpris := fun e => hm (e ▸ hk)
  have hsrc : (st.get k).source = k := hwf k
  have hfresh : st.get k ∈ freshList cfg st now := by
    refine (mem_freshList cfg st now _).2 ⟨⟨(mem_values_iff st _).2 ⟨k, rfl⟩, ?_⟩, hts, ?_⟩
    · rintro ⟨-, hs⟩
      rw [hsrc] at hs
      exact hkm hs
    · omega
  have hne : freshList cfg st now ≠ [] := List.ne_nil_of_mem hfresh
  have hnot : ∀ s, isCandidate cfg st now s →
      s.source ≠ SourceKey.mpris ∧ s ≠ st.mpris := by
    intro s hs
    have h1 : s.source ≠ SourceKey.mpris := fun e => hs.2 ⟨ht, e⟩
    refine ⟨h1, fun e => h1 ?_⟩
    rw [e]
    exact hwf SourceKey.mpris
  rw [pickActive_eq]
  by_cases hp : playingFreshList cfg st now ≠ []
  · obtain ⟨a, ha⟩ := firstMin_isSome (fun a b : SourceState => b.ts - a.ts) _ hp
    have hc := ((mem_playingFreshList cfg st now a).1 (firstMin_mem _ _ a ha)).1
    refine ⟨annotate cfg now a, Or.inl ?_, (hnot a hc).1, (hnot a hc).2⟩
    rw [if_pos hp, ha]
    rfl
  · obtain ⟨a, ha⟩ := firstMin_isSome (fun a b : SourceState => b.ts - a.ts) _ hne
    have hc := ((mem_freshList cfg st now a).1 (firstMin_mem _ _ a ha)).1
    refine ⟨annotate cfg now a, Or.inr ?_, (hnot a hc).1, (hnot a hc).2⟩
    rw [if_neg hp, if_pos hne, ha]
    rfl

/-- Witness of C18 amended: with the default configuration, youtube written at 1000 and the
bridge entry playing and written at 2500, the answer at 3000 has reason "playing" or "paused"
and is not the bridge entry. -/
theorem suppression_keeps_an_answer_witness :
    ∃ a, (pickActive defaultConfig storeTrustedAndBridge 3000 =
          { active := some a, stale := false, reason := "playing" } ∨
        pickActive defaultConfig storeTrustedAndBridge 3000 =
          { active := some a, stale := false, reason := "paused" }) ∧
      a.source ≠ SourceKey.mpris ∧ a.toSourceState ≠ storeTrustedAndBridge.mpris :=
  suppression_keeps_an_answer defaultConfig storeTrustedAndBridge 3000
    (by intro k; cases k <;> rfl) (by decide) (by decide)
    ⟨SourceKey.youtube, by decide, by decide, by decide⟩

end NowPlaying
